import Mathlib

/-!
Verification development for the 9router multi-provider LLM routing proxy.

JavaScript values are shallowly embedded as follows: strings are `List Char`
(JS strings are sequences of code units; all values manipulated here are
plain text, and `List Char` is kernel-computable), numbers that hold
timestamps, HTTP statuses, counters or priorities are `Nat` (ISO date
strings are compared via `new Date(...)` subtraction in the source, which
is order-isomorphic to comparing the underlying epoch milliseconds, so
timestamps are embedded directly as epoch milliseconds), `null`/`undefined`
is `Option.none`, and fallible results are `Option`.  JS `x || d` on
numbers treats `0` as falsy and on strings treats `""` as falsy; the
helpers `jsOrNat` / `jsOrStr` reproduce exactly that.  `Array.prototype.sort`
is stable (ECMA-262), and the source only ever reads element `[0]` of a
sorted array, so sorts are embedded as `firstMinBy`, which returns the
first element attaining the comparator minimum - exactly the head of a
stable sort.
-/

namespace NineRouter

abbrev Str := List Char

/-- JS `x || d` for numeric `x` (`null`, `undefined` and `0` are falsy). -/
def jsOrNat (x : Option Nat) (d : Nat) : Nat :=
  match x with
  | some n => if n = 0 then d else n
  | none => d

/-- JS `x || d` for string `x` (`null`, `undefined` and `""` are falsy). -/
def jsOrStr (x : Option Str) (d : Str) : Str :=
  match x with
  | some s => if s = [] then d else s
  | none => d

/-- JS truthiness of an optional string. -/
def truthyStr (x : Option Str) : Bool :=
  match x with
  | some s => s ≠ []
  | none => false

/-- Head of a stable sort: the first element of the list attaining the
minimum of `f`.  Embeds `array.sort(cmp)[0]` for a comparator realising
the key order `f`. -/
def firstMinBy {α κ : Type} [LinearOrder κ] (f : α → κ) : List α → Option α
  | [] => none
  | x :: xs =>
    match firstMinBy f xs with
    | none => some x
    | some y => if f y < f x then some y else some x

/-! ## Crypto: SHA-256 / HMAC-SHA256 (cloud/src/utils/apiKey.js uses Web
Crypto `HMAC-SHA256`; embedded here executably, byte lists of `Nat`). -/

def w32 (n : Nat) : Nat := n % 4294967296

def rotr (k x : Nat) : Nat := w32 ((x >>> k) ||| (x <<< (32 - k)))

def bsig0 (x : Nat) : Nat := (rotr 2 x) ^^^ (rotr 13 x) ^^^ (rotr 22 x)

def bsig1 (x : Nat) : Nat := (rotr 6 x) ^^^ (rotr 11 x) ^^^ (rotr 25 x)

def ssig0 (x : Nat) : Nat := (rotr 7 x) ^^^ (rotr 18 x) ^^^ (x >>> 3)

def ssig1 (x : Nat) : Nat := (rotr 17 x) ^^^ (rotr 19 x) ^^^ (x >>> 10)

def chW (x y z : Nat) : Nat := (x &&& y) ^^^ ((x ^^^ 4294967295) &&& z)

def majW (x y z : Nat) : Nat := (x &&& y) ^^^ (x &&& z) ^^^ (y &&& z)

def shaK : List Nat :=
  [1116352408, 1899447441, 3049323471, 3921009573, 961987163, 1508970993, 2453635748, 2870763221,
   3624381080, 310598401, 607225278, 1426881987, 1925078388, 2162078206, 2614888103, 3248222580,
   3835390401, 4022224774, 264347078, 604807628, 770255983, 1249150122, 1555081692, 1996064986,
   2554220882, 2821834349, 2952996808, 3210313671, 3336571891, 3584528711, 113926993, 338241895,
   666307205, 773529912, 1294757372, 1396182291, 1695183700, 1986661051, 2177026350, 2456956037,
   2730485921, 2820302411, 3259730800, 3345764771, 3516065817, 3600352804, 4094571909, 275423344,
   430227734, 506948616, 659060556, 883997877, 958139571, 1322822218, 1537002063, 1747873779,
   1955562222, 2024104815, 2227730452, 2361852424, 2428436474, 2756734187, 3204031479, 3329325298]

structure Hash8 where
  a : Nat
  b : Nat
  c : Nat
  d : Nat
  e : Nat
  f : Nat
  g : Nat
  h : Nat
deriving DecidableEq

def shaRound (st : Hash8) (wk : Nat × Nat) : Hash8 :=
  let t1 := w32 (st.h + bsig1 st.e + chW st.e st.f st.g + wk.2 + wk.1)
  let t2 := w32 (bsig0 st.a + majW st.a st.b st.c)
  ⟨w32 (t1 + t2), st.a, st.b, st.c, w32 (st.d + t1), st.e, st.f, st.g⟩

def bytesToWords : List Nat → List Nat
  | b0 :: b1 :: b2 :: b3 :: rest => (b0 * 16777216 + b1 * 65536 + b2 * 256 + b3) :: bytesToWords rest
  | _ => []

def extendW : Nat → List Nat → List Nat
  | 0, wrev => wrev
  | n + 1, wrev =>
    let nw := w32 (ssig1 (wrev.getD 1 0) + wrev.getD 6 0 + ssig0 (wrev.getD 14 0) + wrev.getD 15 0)
    extendW n (nw :: wrev)

def compressBlock (st : Hash8) (block : List Nat) : Hash8 :=
  let wfull := (extendW 48 (bytesToWords block).reverse).reverse
  let fin := (wfull.zip shaK).foldl shaRound st
  ⟨w32 (st.a + fin.a), w32 (st.b + fin.b), w32 (st.c + fin.c), w32 (st.d + fin.d),
   w32 (st.e + fin.e), w32 (st.f + fin.f), w32 (st.g + fin.g), w32 (st.h + fin.h)⟩

def chunksOf64Go : Nat → List Nat → List (List Nat)
  | 0, _ => []
  | _, [] => []
  | fuel + 1, x :: xs => ((x :: xs).take 64) :: chunksOf64Go fuel ((x :: xs).drop 64)

def chunksOf64 (l : List Nat) : List (List Nat) := chunksOf64Go l.length l

def lenBytes8 (n : Nat) : List Nat :=
  [(n >>> 56) % 256, (n >>> 48) % 256, (n >>> 40) % 256, (n >>> 32) % 256,
   (n >>> 24) % 256, (n >>> 16) % 256, (n >>> 8) % 256, n % 256]

def shaPad (msg : List Nat) : List Nat :=
  msg ++ 128 :: List.replicate ((119 - (msg.length % 64)) % 64) 0 ++ lenBytes8 (8 * msg.length)

def shaH0 : Hash8 :=
  ⟨1779033703, 3144134277, 1013904242, 2773480762, 1359893119, 2600822924, 528734635, 1541459225⟩

def wordBytes (w : Nat) : List Nat := [(w >>> 24) % 256, (w >>> 16) % 256, (w >>> 8) % 256, w % 256]

def sha256 (msg : List Nat) : List Nat :=
  let fin := (chunksOf64 (shaPad msg)).foldl compressBlock shaH0
  wordBytes fin.a ++ wordBytes fin.b ++ wordBytes fin.c ++ wordBytes fin.d ++
  wordBytes fin.e ++ wordBytes fin.f ++ wordBytes fin.g ++ wordBytes fin.h

def hmacSha256 (key msg : List Nat) : List Nat :=
  let k0 := if key.length > 64 then sha256 key else key
  let kp := k0 ++ List.replicate (64 - k0.length) 0
  sha256 ((kp.map (fun b => b ^^^ 92)) ++ sha256 ((kp.map (fun b => b ^^^ 54)) ++ msg))

/-! ## cloud/src/utils/apiKey.js -/

def hexDigitList : Str := "0123456789abcdef".data

/-- One byte rendered as the two lowercase hex characters produced by
`b.toString(16).padStart(2, "0")`. -/
def byteToHex (b : Nat) : Str := [hexDigitList.getD (b / 16 % 16) '0', hexDigitList.getD (b % 16) '0']

/-- UTF-8 encoding of one character (`TextEncoder`). -/
def utf8Char (c : Char) : List Nat :=
  let n := c.toNat
  if n < 128 then [n]
  else if n < 2048 then [192 + n / 64, 128 + n % 64]
  else if n < 65536 then [224 + n / 4096, 128 + n / 64 % 64, 128 + n % 64]
  else [240 + n / 262144, 128 + n / 4096 % 64, 128 + n / 64 % 64, 128 + n % 64]

def utf8Encode (s : Str) : List Nat := (s.map utf8Char).flatten

def API_KEY_SECRET : Str := "endpoint-proxy-api-key-secret".data

/-- Embeds `generateCrc` of cloud/src/utils/apiKey.js: the first 8 hex
characters of `HMAC-SHA256(API_KEY_SECRET, machineId + keyId)`. -/
def generateCrc (machineId keyId : Str) : Str :=
  (((hmacSha256 (utf8Encode API_KEY_SECRET) (utf8Encode (machineId ++ keyId))).map byteToHex).flatten).take 8

/-- Embeds JS `String.prototype.split` with a single-character separator. -/
def splitOnChar (sep : Char) : Str → List Str
  | [] => [[]]
  | c :: cs =>
    match splitOnChar sep cs with
    | [] => [[]]
    | p :: ps => if c = sep then [] :: p :: ps else (c :: p) :: ps

structure ParsedKey where
  machineId : Option Str
  keyId : Str
  isNewFormat : Bool
deriving DecidableEq

/-- Embeds `parseApiKey` of cloud/src/utils/apiKey.js.  The source first
rejects falsy keys and keys not starting with `"sk-"`, then splits on `-`:
4 parts is the new format (destructured as `[, machineId, keyId, crc]`,
ignoring part 0) and is accepted iff the CRC matches; 2 parts is the
legacy format; anything else is rejected. -/
def parseApiKey (apiKey : Str) : Option ParsedKey :=
  if ¬ ("sk-".data.isPrefixOf apiKey) then none
  else
    match splitOnChar '-' apiKey with
    | [_, machineId, keyId, crc] =>
      if crc = generateCrc machineId keyId then some ⟨some machineId, keyId, true⟩ else none
    | [_, keyId] => some ⟨none, keyId, false⟩
    | _ => none

/-- Assembles the new-format key `sk-{machineId}-{keyId}-{crc8}` exactly as
issued by the key-creation path described by the spec (section 4.7). -/
def formatApiKey (machineId keyId : Str) : Str :=
  "sk-".data ++ machineId ++ '-' :: (keyId ++ '-' :: generateCrc machineId keyId)

/-- Number of positions at which two equal-length strings differ. -/
def hammingNe (a b : Str) : Nat := (List.zip a b).countP (fun p => p.1 ≠ p.2)

/-! ## open-sse/utils/stream.js: format detection and the SSE engine -/

inductive Format
  | OPENAI
  | OPENAI_RESPONSES
  | CLAUDE
  | GEMINI
  | OLLAMA
  | KIRO
  | ANTIGRAVITY
deriving DecidableEq

/-- Structural markers of a parsed response chunk inspected by
`detectResponseFormat`: the `type` field (with its string value when
present) and whether the `choices` / `candidates` fields are present
(`!== undefined`). -/
structure DChunk where
  typeField : Option Str
  hasChoices : Bool
  hasCandidates : Bool
deriving DecidableEq

/-- Embeds `detectResponseFormat` (stream.js lines 18-42): the four
structural checks in source order. -/
def detectResponseFormat (chunk : DChunk) : Option Format :=
  if (match chunk.typeField with | some t => "response.".data.isPrefixOf t | none => false)
  then some .OPENAI_RESPONSES
  else if chunk.hasChoices then some .OPENAI
  else if chunk.typeField.isSome then some .CLAUDE
  else if chunk.hasCandidates then some .GEMINI
  else none

/-- Per-stream state threaded by the engine: the cached detected format
(`state.detectedFormat`) plus the translator-owned part of the state. -/
structure EState (σ : Type) where
  detectedFormat : Option Format
  inner : σ

/-- Embeds `resolveActualTargetFormat` (stream.js lines 57-71): fast path
on a cached detection, otherwise sniff the chunk and cache the detected
format only when it differs from the configured target. -/
def resolveActualTargetFormat {σ : Type} (parsed : DChunk) (targetFormat : Format)
    (st : EState σ) : Format × EState σ :=
  match st.detectedFormat with
  | some f => (f, st)
  | none =>
    match detectResponseFormat parsed with
    | none => (targetFormat, st)
    | some d =>
      if d = targetFormat then (targetFormat, st)
      else (d, { st with detectedFormat := some d })

inductive PLine
  | done
  | chunk (c : DChunk)

/-- Modelled from the spec: the translator pipeline called by the stream
engine (`parseSSELine`, `translateResponse`/`initState`,
`hasValuableContent`, `formatSSE` live in open-sse modules that are not
under src/).  `parseLine` recognises the `[DONE]` sentinel and otherwise
JSON-decodes a `data:` line (spec section 4.2); `translateResponse` maps
one parsed chunk to the 0..N serialised client chunks that survive the
empty-chunk filter and usage injection (spec section 4.1: response
translators return `[clientChunk...]`, so the empty list is a legal
result); `flushResponse` is the terminal `fn(nil, state)` flush call. -/
structure Translator (σ : Type) where
  initState : σ
  parseLine : Str → Option PLine
  translateResponse : Format → Format → DChunk → σ → List Str × σ
  flushResponse : Format → Format → σ → List Str

def isJsWhitespace (c : Char) : Bool := c = ' ' ∨ c = '\t' ∨ c = '\n' ∨ c = '\r'

/-- Embeds JS `String.prototype.trim`. -/
def jsTrim (s : Str) : Str := ((s.dropWhile isJsWhitespace).reverse.dropWhile isJsWhitespace).reverse

/-- The SSE terminator chunk `data: [DONE]\n\n`. -/
def doneChunk : Str := "data: [DONE]\n\n".data

/-- Embeds one complete line of the TRANSLATE branch of `transform`
(stream.js lines 218-311): skip blank and unparseable lines, forward the
`[DONE]` sentinel, otherwise resolve the effective target format and
translate.  Content/usage accounting feeds only the translator-owned
state, which the `Translator` parameter owns. -/
def processTranslateLine {σ : Type} (tr : Translator σ) (targetFormat sourceFormat : Format)
    (line : Str) (st : EState σ) : List Str × EState σ :=
  let trimmed := jsTrim line
  if trimmed = [] then ([], st)
  else
    match tr.parseLine trimmed with
    | none => ([], st)
    | some .done => ([doneChunk], st)
    | some (.chunk c) =>
      let fmtSt := resolveActualTargetFormat c targetFormat st
      let outs := tr.translateResponse fmtSt.1 sourceFormat c fmtSt.2.inner
      (outs.1, { fmtSt.2 with inner := outs.2 })

def runLines {St : Type} (step : Str → St → List Str × St) : List Str → St → List Str × St
  | [], st => ([], st)
  | l :: ls, st =>
    let r := step l st
    let rest := runLines step ls r.2
    (r.1 ++ rest.1, rest.2)

/-- Embeds one `transform(chunk)` call (stream.js lines 121-131): append
the decoded text to the carry-over buffer, split on `\n`, keep the
trailing partial line (`lines.pop() || ""`), process the complete lines. -/
def engineFeed {St : Type} (step : Str → St → List Str × St) (text : Str)
    (bufSt : Str × St) : List Str × (Str × St) :=
  let parts := splitOnChar '\n' (bufSt.1 ++ text)
  let buffer2 := (parts.getLast?).getD []
  let r := runLines step parts.dropLast bufSt.2
  (r.1, (buffer2, r.2))

def engineFeedAll {St : Type} (step : Str → St → List Str × St) :
    List Str → Str × St → List Str × (Str × St)
  | [], bufSt => ([], bufSt)
  | t :: ts, bufSt =>
    let r := engineFeed step t bufSt
    let rest := engineFeedAll step ts r.2
    (r.1 ++ rest.1, rest.2)

/-- Embeds the leftover-buffer handling of the TRANSLATE `flush`
(stream.js lines 357-378): a parseable non-`[DONE]` remainder is resolved
and translated; a `[DONE]` remainder or garbage is dropped. -/
def flushLeftover {σ : Type} (tr : Translator σ) (targetFormat sourceFormat : Format)
    (buffer : Str) (st : EState σ) : List Str × EState σ :=
  if jsTrim buffer ≠ [] then
    match tr.parseLine (jsTrim buffer) with
    | some (.chunk c) =>
      let fmtSt := resolveActualTargetFormat c targetFormat st
      let outs := tr.translateResponse fmtSt.1 sourceFormat c fmtSt.2.inner
      (outs.1, { fmtSt.2 with inner := outs.2 })
    | _ => ([], st)
  else ([], st)

/-- Embeds the TRANSLATE `flush` (stream.js lines 357-401): leftover
buffer, then the translator flush at `state.detectedFormat || targetFormat`,
then the unconditional terminator. -/
def flushTranslate {σ : Type} (tr : Translator σ) (targetFormat sourceFormat : Format)
    (buffer : Str) (st : EState σ) : List Str :=
  let pre := flushLeftover tr targetFormat sourceFormat buffer st
  pre.1 ++ tr.flushResponse (pre.2.detectedFormat.getD targetFormat) sourceFormat pre.2.inner ++ [doneChunk]

/-- The full chunk sequence enqueued toward the client by a TRANSLATE-mode
`createSSEStream` over the given upstream text chunks. -/
def runTranslateStream {σ : Type} (tr : Translator σ) (targetFormat sourceFormat : Format)
    (input : List Str) : List Str :=
  let r := engineFeedAll (processTranslateLine tr targetFormat sourceFormat) input ([], ⟨none, tr.initState⟩)
  r.1 ++ flushTranslate tr targetFormat sourceFormat r.2.1 r.2.2

/-- Modelled from the spec: the PASSTHROUGH normalisation (stream.js lines
136-215 rely on `parseSSELine`-adjacent helpers absent from src/).  Each
complete line yields at most one output (`none` embeds the `continue`
that drops chunks without valuable content); `passBuf` is the flush-time
normalisation of the leftover buffer (lines 321-328). -/
structure PassNormalizer (π : Type) where
  initState : π
  passLine : Str → π → Option Str × π
  passBuf : Str → Str

def processPassthroughLine {π : Type} (pn : PassNormalizer π) (line : Str) (st : π) :
    List Str × π :=
  let r := pn.passLine line st
  ((match r.1 with | some out => [out] | none => []), r.2)

/-- Embeds the PASSTHROUGH `flush` (stream.js lines 320-354): leftover
buffer if non-empty, then the unconditional terminator. -/
def flushPassthrough {π : Type} (pn : PassNormalizer π) (buffer : Str) (_st : π) : List Str :=
  (if buffer ≠ [] then [pn.passBuf buffer] else []) ++ [doneChunk]

/-- The full chunk sequence enqueued toward the client by a
PASSTHROUGH-mode `createSSEStream` over the given upstream text chunks. -/
def runPassthroughStream {π : Type} (pn : PassNormalizer π) (input : List Str) : List Str :=
  let r := engineFeedAll (processPassthroughLine pn) input ([], pn.initState)
  r.1 ++ flushPassthrough pn r.2.1 r.2.2

/-- The property asserted by claim C1 of the client chunk sequence: it
ends with the terminator and contains it exactly once. -/
def endsWithExactlyOneDone (out : List Str) : Prop :=
  out.getLast? = some doneChunk ∧ out.count doneChunk = 1

/-- Concrete translator instance for the C1 counterexample: recognises
only the `[DONE]` sentinel; its chunk and flush translations emit nothing
(a response translator may return 0 chunks, spec section 4.1). -/
def trivialTranslator : Translator Unit where
  initState := ()
  parseLine := fun s => if s = "data: [DONE]".data then some .done else none
  translateResponse := fun _ _ _ st => ([], st)
  flushResponse := fun _ _ _ => []

/-! ## src/sse/services/auth.js: connections, model locks, selection -/

/-- One `ProviderConnection` document (spec section 3).  `id` is the
connection key; ISO-8601 times are embedded as epoch milliseconds
(`new Date(iso)` comparisons are order-isomorphic to comparing the
milliseconds).  `testStatus` is the health field used by the local
service, `status` the one used by the cloud worker. -/
structure Conn where
  id : Str
  provider : Str
  isActive : Bool
  priority : Option Nat
  lastUsedAt : Option Nat
  consecutiveUseCount : Option Nat
  rateLimitedUntil : Option Nat
  testStatus : Option Str
  status : Option Str
  lastError : Option Str
  errorCode : Option Nat
  lastErrorAt : Option Nat
  backoffLevel : Option Nat
deriving DecidableEq

/-- Modelled from the spec: `isAccountUnavailable` of
open-sse/services/accountFallback.js is imported by src/ but absent from
it.  Spec section 3: a connection is eligible iff `rateLimitedUntil ≤ t`,
so it is unavailable while `rateLimitedUntil` lies strictly in the
future. -/
def isAccountUnavailable (rateLimitedUntil : Option Nat) (now : Nat) : Bool :=
  match rateLimitedUntil with
  | some t => now < t
  | none => false

/-- Modelled from the spec: `getUnavailableUntil` of accountFallback.js
(absent from src/); spec section 4.3 sets `rateLimitedUntil = now +
cooldownMs`. -/
def getUnavailableUntil (cooldownMs now : Nat) : Nat := now + cooldownMs

/-- Modelled from the spec: `getEarliestRateLimitedUntil` of
accountFallback.js (absent from src/); spec section 4.3 step 5 asks for
the earliest `rateLimitedUntil` still in the future among the given
connections, if any. -/
def getEarliestRateLimitedUntil (conns : List Conn) (now : Nat) : Option Nat :=
  firstMinBy id ((conns.filterMap (·.rateLimitedUntil)).filter (fun t => decide (now < t)))

/-- Modelled from the spec: `formatRetryAfter` of accountFallback.js
(absent from src/); a human-readable reset time. -/
def formatRetryAfter (t now : Nat) : Str :=
  "reset in ".data ++ Nat.toDigits 10 ((t - now) / 1000) ++ "s".data

structure FallbackDecision where
  shouldFallback : Bool
  cooldownMs : Nat
  newBackoffLevel : Option Nat
deriving DecidableEq

def rateLimitTokens : List Str :=
  ["rate limit".data, "quota".data, "insufficient_quota".data, "unavailable".data]

def matchesRateLimitToken (errorText : Str) : Bool :=
  rateLimitTokens.any (fun tok => decide (tok <:+: errorText))

/-- Modelled from the spec: `checkFallbackError` of accountFallback.js
(absent from src/), following the fallback policy of spec section 4.3:
error text matching a known rate-limit token is treated as 429 regardless
of status; 429 falls back with cooldown `60 s * 2^backoffLevel` capped at
1 h and `newBackoffLevel = level + 1` (the 60 s base realises spec
scenario 1, where a level-0 429 cools down for 60 s); 401/403 fall back
with 60 s; 402 with 24 h; 5xx with 30 s; other 4xx do not fall back; a
network error (no status) falls back with 15 s.  Only the 429 class
reports a `newBackoffLevel`. -/
def checkFallbackError (status : Option Nat) (errorText : Str) (backoffLevel : Nat) :
    FallbackDecision :=
  if matchesRateLimitToken errorText ∨ status = some 429 then
    ⟨true, min (60000 * 2 ^ backoffLevel) 3600000, some (backoffLevel + 1)⟩
  else
    match status with
    | none => ⟨true, 15000, none⟩
    | some s =>
      if s = 401 ∨ s = 403 then ⟨true, 60000, none⟩
      else if s = 402 then ⟨true, 86400000, none⟩
      else if 500 ≤ s then ⟨true, 30000, none⟩
      else ⟨false, 0, none⟩

def MULTI_BUCKET_PROVIDERS : List Str := ["antigravity".data]

/-- Embeds `isMultiBucketProvider` (auth.js lines 61-63); a `null`
provider is in no set. -/
def isMultiBucketProvider (provider : Option Str) : Bool :=
  match provider with
  | some p => MULTI_BUCKET_PROVIDERS.contains p
  | none => false

/-- The in-memory `Map<"connectionId:model", expiryTimestamp>` of model
locks (auth.js line 29), embedded as an association list. -/
abbrev ModelLocks := List (Str × Nat)

def lockKeyOf (connectionId model : Str) : Str := connectionId ++ ':' :: model

def locksGet (locks : ModelLocks) (key : Str) : Option Nat :=
  (locks.find? (fun e => decide (e.1 = key))).map (·.2)

def locksSet (locks : ModelLocks) (key : Str) (v : Nat) : ModelLocks :=
  if locks.any (fun e => decide (e.1 = key)) then
    locks.map (fun e => if e.1 = key then (e.1, v) else e)
  else locks ++ [(key, v)]

/-- Embeds `isModelLocked` (auth.js lines 38-46).  The source lazily
deletes an expired entry before returning false; the deletion changes no
read result, so the embedding is read-only. -/
def isModelLocked (locks : ModelLocks) (connectionId model : Str) (now : Nat) : Bool :=
  if connectionId = [] ∨ model = [] then false
  else
    match locksGet locks (lockKeyOf connectionId model) with
    | some expiry => now < expiry
    | none => false

def DEFAULT_MODEL_LOCK_MS : Nat := 300000

/-- Embeds `lockModel` (auth.js lines 51-56). -/
def lockModel (locks : ModelLocks) (connectionId model : Str) (durationMs now : Nat) :
    ModelLocks :=
  if connectionId = [] ∨ model = [] then locks
  else locksSet locks (lockKeyOf connectionId model) (now + durationMs)

/-- The state acted on by the auth service: the persisted connection
documents and the in-memory model locks. -/
structure AuthState where
  conns : List Conn
  modelLocks : ModelLocks
deriving DecidableEq

/-- Embeds `updateProviderConnection(id, fields)`: the document store
updates the connection(s) bearing `id`. -/
def updateConnById (conns : List Conn) (cid : Str) (f : Conn → Conn) : List Conn :=
  conns.map (fun c => if c.id = cid then f c else c)

/-- The `conn?.backoffLevel || 0` read of `markAccountUnavailable`
(auth.js line 234), over the first connection bearing the id. -/
def backoffOf (conns : List Conn) (cid : Str) : Nat :=
  match conns.find? (fun c => decide (c.id = cid)) with
  | some c => c.backoffLevel.getD 0
  | none => 0

structure MarkResult where
  shouldFallback : Bool
  cooldownMs : Nat
deriving DecidableEq

/-- Embeds `markAccountUnavailable` (auth.js lines 230-262): read the
backoff level of the connection (looked up among the provider's
connections, as the source queries `getProviderConnections({provider})`),
classify via the fallback policy; a non-fallback error changes nothing;
a 429 on a multi-bucket provider with a known model only places an
in-memory model lock for `cooldownMs` (or the 5-minute default when the
cooldown is 0); otherwise the connection document is updated with the
cooldown, error fields and new backoff level (`newBackoffLevel ??
backoffLevel`). -/
def markAccountUnavailable (st : AuthState) (connectionId : Str) (status : Option Nat)
    (errorText : Str) (provider : Option Str) (model : Option Str) (now : Nat) :
    AuthState × MarkResult :=
  let provConns := match provider with
    | some p => st.conns.filter (fun c => decide (c.provider = p))
    | none => st.conns
  let backoffLevel := backoffOf provConns connectionId
  let d := checkFallbackError status errorText backoffLevel
  if d.shouldFallback = false then (st, ⟨false, 0⟩)
  else if isMultiBucketProvider provider ∧ status = some 429 ∧ truthyStr model then
    let lockDuration := if 0 < d.cooldownMs then d.cooldownMs else DEFAULT_MODEL_LOCK_MS
    ({ st with modelLocks := lockModel st.modelLocks connectionId (model.getD []) lockDuration now },
     ⟨true, 0⟩)
  else
    ({ st with conns := updateConnById st.conns connectionId (fun c =>
        { c with rateLimitedUntil := some (getUnavailableUntil d.cooldownMs now),
                 testStatus := some "unavailable".data,
                 lastError := some (errorText.take 100),
                 errorCode := status,
                 lastErrorAt := some now,
                 backoffLevel := some (d.newBackoffLevel.getD backoffLevel) }) },
     ⟨true, d.cooldownMs⟩)

/-- Embeds `clearAccountError` (auth.js lines 268-284): skip the write
when the caller-supplied current connection carries no error marker,
otherwise clear the error triple and reset `backoffLevel` to 0. -/
def clearAccountError (st : AuthState) (connectionId : Str) (currentConnection : Conn) :
    AuthState :=
  let hasError := currentConnection.testStatus = some "unavailable".data ∨
    truthyStr currentConnection.lastError ∨ currentConnection.rateLimitedUntil.isSome
  if hasError then
    { st with conns := updateConnById st.conns connectionId (fun c =>
        { c with testStatus := some "active".data, lastError := none, lastErrorAt := none,
                 rateLimitedUntil := none, backoffLevel := some 0 }) }
  else st

/-! ### Round-robin selection (auth.js lines 153-199) -/

def effPriority (c : Conn) : Nat := jsOrNat c.priority 999

def effCount (c : Conn) : Nat := c.consecutiveUseCount.getD 0

/-- Key realising the `byRecency` comparator (auth.js lines 161-166):
most recent `lastUsedAt` first, never-used connections last ordered by
priority. -/
def recencyKey (c : Conn) : Lex (Int × Int) :=
  toLex (match c.lastUsedAt with
  | some t => ((0 : Int), -(t : Int))
  | none => ((1 : Int), (effPriority c : Int)))

/-- Key realising the `sortedByOldest` comparator (auth.js lines
181-186): never-used connections first ordered by priority, then
ascending `lastUsedAt`. -/
def oldestKey (c : Conn) : Lex (Int × Int) :=
  toLex (match c.lastUsedAt with
  | some t => ((1 : Int), (t : Int))
  | none => ((0 : Int), (effPriority c : Int)))

def rrCurrent (avail : List Conn) : Option Conn := firstMinBy recencyKey avail

def rrOldest (avail : List Conn) : Option Conn := firstMinBy oldestKey avail

/-- Embeds the round-robin branch of `getProviderCredentials` (auth.js
lines 157-195): stay with the most recently used connection while it has
a `lastUsedAt` and its consecutive-use count is below the sticky limit
(incrementing the count), otherwise pick the least recently used
connection and reset its count to 1. -/
def roundRobinSelect (stickyLimit : Nat) (avail : List Conn) : Option (Conn × Nat) :=
  match rrCurrent avail with
  | some cur =>
    if cur.lastUsedAt.isSome ∧ effCount cur < stickyLimit then some (cur, effCount cur + 1)
    else (rrOldest avail).map (fun c => (c, 1))
  | none => (rrOldest avail).map (fun c => (c, 1))

/-- The availability filter of `getProviderCredentials` (auth.js lines
107-113). -/
def connPasses (multiBucket : Bool) (locks : ModelLocks) (excludeConnectionId : Option Str)
    (model : Option Str) (now : Nat) (c : Conn) : Bool :=
  if truthyStr excludeConnectionId ∧ some c.id = excludeConnectionId then false
  else if isAccountUnavailable c.rateLimitedUntil now then false
  else if multiBucket ∧ truthyStr model ∧ isModelLocked locks c.id (model.getD []) now then false
  else true

def availableConnections (providerId : Str) (connections : List Conn) (locks : ModelLocks)
    (excludeConnectionId : Option Str) (model : Option Str) (now : Nat) : List Conn :=
  connections.filter (connPasses (isMultiBucketProvider (some providerId)) locks
    excludeConnectionId model now)

/-- The available connections computed by `getProviderCredentials` from
the machine's connection list: the provider's active connections
(document-store order) that pass the availability filter. -/
def authAvailable (providerId : Str) (all : List Conn) (locks : ModelLocks)
    (excludeConnectionId : Option Str) (model : Option Str) (now : Nat) : List Conn :=
  availableConnections providerId
    (all.filter (fun c => decide (c.provider = providerId) && c.isActive))
    locks excludeConnectionId model now

/-- Modelled from the claim C2 wording: "the connection with the least
recent lastUsedAt (ties broken by lowest priority)" - never-used counts
as least recent; on a full tie the earliest listed connection is meant. -/
def specOldestPick (avail : List Conn) : Option Conn :=
  firstMinBy (fun c => toLex (oldestKey c, effPriority c)) avail

structure Settings where
  fallbackStrategy : Option Str
  stickyRoundRobinLimit : Option Nat
deriving DecidableEq

inductive SelectionOutcome
  | noCredentials
  | allRateLimited (retryAfter : Nat) (retryAfterHuman : Str) (lastError : Option Str)
      (lastErrorCode : Option Nat)
  | selected (c : Conn)
deriving DecidableEq

/-- Embeds `getProviderCredentials` (auth.js lines 72-217).  `all` is the
machine's connection list for this provider area in document-store order;
`getProviderConnections({provider, isActive:true})` returns the active
ones sorted by priority, which the theorems carry as an ordering
hypothesis.  Alias resolution (`resolveProviderId`) happens before this
model, whose `providerId` is already canonical.  The function returns the
selection outcome together with the persisted connection list (the
round-robin branch awaits a recency update before returning). -/
def getProviderCredentialsLocal (providerId : Str) (all : List Conn) (settings : Settings)
    (locks : ModelLocks) (excludeConnectionId : Option Str) (model : Option Str) (now : Nat) :
    SelectionOutcome × List Conn :=
  let connections := all.filter (fun c => decide (c.provider = providerId) && c.isActive)
  if connections = [] then
    let allConnections := all.filter (fun c => decide (c.provider = providerId))
    match getEarliestRateLimitedUntil allConnections now with
    | some e => (.allRateLimited e (formatRetryAfter e now) none none, all)
    | none => (.noCredentials, all)
  else
    let available := authAvailable providerId all locks excludeConnectionId model now
    if available = [] then
      match getEarliestRateLimitedUntil connections now with
      | some e =>
        let rateLimitedConns := connections.filter
          (fun c => isAccountUnavailable c.rateLimitedUntil now)
        let earliestConn := firstMinBy (fun c => c.rateLimitedUntil.getD 0) rateLimitedConns
        (.allRateLimited e (formatRetryAfter e now) (earliestConn.bind (·.lastError))
          (earliestConn.bind (·.errorCode)), all)
      | none =>
        if isMultiBucketProvider (some providerId) ∧ truthyStr model then
          (.allRateLimited (now + 60000) "reset after 1m".data
            (some ("All accounts rate limited for model ".data ++ model.getD [])) none, all)
        else (.noCredentials, all)
    else
      let strategy := jsOrStr settings.fallbackStrategy "fill-first".data
      if strategy = "round-robin".data then
        let stickyLimit := jsOrNat settings.stickyRoundRobinLimit 3
        match roundRobinSelect stickyLimit available with
        | some cn =>
          (.selected cn.1, updateConnById all cn.1.id (fun c =>
            { c with lastUsedAt := some now, consecutiveUseCount := some cn.2 }))
        | none => (.noCredentials, all)
      else
        match available.head? with
        | some c => (.selected c, all)
        | none => (.noCredentials, all)

/-- A fresh connection document: active, no priority, never used, no
error state. -/
def mkConn (id provider : Str) : Conn :=
  ⟨id, provider, true, none, none, none, none, none, none, none, none, none, none⟩

def connA : Conn := mkConn "A".data "prov".data

def connB : Conn := mkConn "B".data "prov".data

def rrSettings : Settings := ⟨some "round-robin".data, none⟩

/-- Runs `n` sequential selections (requests at strictly increasing
times), returning the ids selected in order; realises the C2 scenario. -/
def runSequentialSelections (providerId : Str) (settings : Settings) (locks : ModelLocks)
    (model : Option Str) : Nat → List Conn → Nat → List Str
  | 0, _, _ => []
  | n + 1, all, now =>
    match getProviderCredentialsLocal providerId all settings locks none model now with
    | (.selected c, all2) => c.id :: runSequentialSelections providerId settings locks model n all2 (now + 1)
    | (_, _) => []

/-! ## unnamed/part_000: the cloud worker chat handler -/

/-- The machine document as read by the worker (`data.providers`),
embedded as the `Object.entries` list in insertion order, each entry's
key stored in `Conn.id`. -/
structure CloudData where
  providers : List Conn
deriving DecidableEq

inductive CloudCredResult
  | creds (c : Conn)
  | allRateLimited (retryAfter : Nat) (retryAfterHuman : Str) (lastError : Option Str)
      (lastErrorCode : Option Nat)
deriving DecidableEq

/-- The eligibility filter of the worker's `getProviderCredentials`
(unnamed/part_000 lines 530-536). -/
def cloudEligible (data : CloudData) (provider : Str) (excludeConnectionId : Option Str)
    (now : Nat) : List Conn :=
  data.providers.filter (fun c =>
    decide (c.provider = provider) && c.isActive &&
    !(truthyStr excludeConnectionId && decide (some c.id = excludeConnectionId)) &&
    !(isAccountUnavailable c.rateLimitedUntil now))

/-- The provider's active connections considered by the worker's
all-rate-limited path (unnamed/part_000 lines 541-543). -/
def cloudAllConnections (data : CloudData) (provider : Str) : List Conn :=
  data.providers.filter (fun c => decide (c.provider = provider) && c.isActive)

/-- The all-rate-limited path of the worker's `getProviderCredentials`
(unnamed/part_000 lines 544-562), over the provider's active
connections: the earliest future `rateLimitedUntil`, with the error
fields of the (first) connection bearing it. -/
def cloudRateLimitedResult (allConnections : List Conn) (now : Nat) : Option CloudCredResult :=
  match getEarliestRateLimitedUntil allConnections now with
  | some e =>
    let rateLimitedConns := allConnections.filter
      (fun c => isAccountUnavailable c.rateLimitedUntil now)
    let earliestConn := firstMinBy (fun c => c.rateLimitedUntil.getD 0) rateLimitedConns
    some (.allRateLimited e (formatRetryAfter e now) (earliestConn.bind (·.lastError))
      (earliestConn.bind (·.errorCode)))
  | none => none

/-- Embeds the worker's `getProviderCredentials` (unnamed/part_000 lines
521-581): filter eligible connections, sort by `priority || 999` (stable)
and take element 0; when none is eligible, fall to the all-rate-limited
path; otherwise null. -/
def getProviderCredentialsCloud (data : Option CloudData) (provider : Str)
    (excludeConnectionId : Option Str) (now : Nat) : Option CloudCredResult :=
  match data with
  | none => none
  | some data =>
    match firstMinBy effPriority (cloudEligible data provider excludeConnectionId now) with
    | some c => some (.creds c)
    | none => cloudRateLimitedResult (cloudAllConnections data provider) now

/-- Embeds the worker's `markAccountUnavailable` (unnamed/part_000 lines
583-617): look the connection up, classify via the fallback policy
(called there without a prior `shouldFallback` gate), and persist
cooldown, error fields and new backoff level (`errorCode = status ||
null`). -/
def markAccountUnavailableCloud (data : CloudData) (connectionId : Str) (status : Option Nat)
    (errorText : Str) (now : Nat) : CloudData :=
  match data.providers.find? (fun c => decide (c.id = connectionId)) with
  | none => data
  | some conn =>
    let backoffLevel := conn.backoffLevel.getD 0
    let d := checkFallbackError status errorText backoffLevel
    { providers := updateConnById data.providers connectionId (fun c =>
        { c with rateLimitedUntil := some (getUnavailableUntil d.cooldownMs now),
                 status := some "unavailable".data,
                 lastError := some (errorText.take 100),
                 errorCode := if status = some 0 then none else status,
                 lastErrorAt := some now,
                 backoffLevel := some (d.newBackoffLevel.getD backoffLevel) }) }

structure HttpResponse where
  status : Nat
  retryAfter : Option Str
  body : Str
deriving DecidableEq

def jsonErrorBody (msg : Str) : Str :=
  "\x7b\"error\":\x7b\"message\":\"".data ++ msg ++ "\"\x7d\x7d".data

/-- JS `Math.ceil(a / 1000)` over an integer numerator. -/
def ceilDivMs (a : Int) : Int := -((-a).fdiv 1000)

def natToStr (n : Nat) : Str := Nat.toDigits 10 n

/-- Embeds the `allRateLimited` response construction of
`handleSingleModelChat` (unnamed/part_000 lines 404-421): message
`[provider/model] error (human reset)`, status `lastStatus ||
Number(credentials.lastErrorCode) || 503`, header `Retry-After =
String(Math.max(ceil((retryAfter - now)/1000), 1))`. -/
def allRateLimitedResponse (provider model : Str) (lastError : Option Str)
    (lastStatus : Option Nat) (retryAfter : Nat) (credLastError : Option Str)
    (credLastErrorCode : Option Nat) (retryAfterHuman : Str) (now : Nat) : HttpResponse :=
  let retryAfterSec : Int := ceilDivMs ((retryAfter : Int) - (now : Int))
  let errorMsg := jsOrStr lastError (jsOrStr credLastError "Unavailable".data)
  let msg := "[".data ++ provider ++ "/".data ++ model ++ "] ".data ++ errorMsg ++
    " (".data ++ retryAfterHuman ++ ")".data
  { status := jsOrNat lastStatus (jsOrNat credLastErrorCode 503),
    retryAfter := some (natToStr (max retryAfterSec 1).toNat),
    body := jsonErrorBody msg }

/-- Outcome of one `handleChatCore` dispatch, supplied per iteration by
an oracle (the upstream is external input). -/
inductive CoreOutcome
  | success
  | failure (status : Option Nat) (error : Str)

inductive LoopExit
  | success
  | rateLimitedResp (r : HttpResponse)
  | noCredsBadRequest
  | noMoreAccounts (status : Nat)
  | upstreamError

/-- Embeds the credential-fallback `while (true)` loop of
`handleSingleModelChat` (unnamed/part_000 lines 396-487), fuel-indexed:
`none` means the loop is still running after `fuel` iterations.  The
machine document is threaded through `markAccountUnavailable` (each read
observes the preceding write) and `now` is fixed for the whole request
(no cooldown expires mid-request), which are exactly the claim's stated
assumptions. -/
def handleSingleModelLoop (oracle : Nat → CoreOutcome) (provider model : Str) (now : Nat) :
    Nat → CloudData → Option Str → Option Str → Option Nat → Nat → Option LoopExit
  | 0, _, _, _, _, _ => none
  | fuel + 1, data, excludeConnectionId, lastError, lastStatus, iter =>
    match getProviderCredentialsCloud (some data) provider excludeConnectionId now with
    | none =>
      if excludeConnectionId = none then some .noCredsBadRequest
      else some (.noMoreAccounts (jsOrNat lastStatus 503))
    | some (.allRateLimited retryAfter human credLastError credLastErrorCode) =>
      some (.rateLimitedResp (allRateLimitedResponse provider model lastError lastStatus
        retryAfter credLastError credLastErrorCode human now))
    | some (.creds c) =>
      match oracle iter with
      | .success => some .success
      | .failure status error =>
        if (checkFallbackError status error 0).shouldFallback then
          handleSingleModelLoop oracle provider model now fuel
            (markAccountUnavailableCloud data c.id status error now)
            (some c.id) (some error) status (iter + 1)
        else some .upstreamError

/-! ## open-sse/executors/antigravity.js: the execute retry loop -/

def MAX_RETRY_AFTER_MS : Nat := 5000

def MAX_AUTO_RETRIES : Nat := 2

/-- One upstream fetch result: an HTTP status together with the wait
parsed from its rate-limit headers by `parseRetryHeaders` (the headers
are external input, so the parsed value is what the oracle supplies;
`none` or `some 0` embeds "no usable Retry-After"), or a network error. -/
inductive FetchOut
  | resp (status : Nat) (retryMs : Option Nat)
  | netError

/-- What one execution of the `for` body does next: re-enter the loop at
the given `urlIndex` (the value after the `continue` and the `urlIndex++`
loop update), return the response, or throw. -/
inductive AgStep
  | continueAt (urlIndex : Int)
  | returned (status : Nat)
  | thrown

/-- Embeds one entry into the `for` body of `AntigravityExecutor.execute`
(antigravity.js lines 130-186).  `retryAttempts` is re-initialised to 0
here because the source declares `let retryAttempts = 0` inside the loop
body (line 134), so every `continue` discards the counter.
`BaseExecutor.shouldRetry` is not under src/ and is taken as a
parameter. -/
def agBody (shouldRetry : Nat → Int → Bool) (fallbackCount : Nat) (out : FetchOut)
    (urlIndex : Int) : AgStep :=
  let retryAttempts : Nat := 0
  match out with
  | .netError =>
    if urlIndex + 1 < (fallbackCount : Int) then .continueAt (urlIndex + 1) else .thrown
  | .resp status retryMs =>
    if status = 429 ∨ status = 503 then
      if (match retryMs with | some r => decide (0 < r ∧ r ≤ MAX_RETRY_AFTER_MS) | none => false) then
        .continueAt urlIndex
      else if status = 429 ∧ (retryMs = none ∨ retryMs = some 0) ∧
          retryAttempts < MAX_AUTO_RETRIES then
        .continueAt urlIndex
      else if urlIndex + 1 < (fallbackCount : Int) then .continueAt (urlIndex + 1)
      else if shouldRetry status urlIndex then .continueAt (urlIndex + 1)
      else .returned status
    else if shouldRetry status urlIndex then .continueAt (urlIndex + 1)
    else .returned status

inductive AgResult
  | returned (status : Nat) (fetchCount : Nat)
  | threw (fetchCount : Nat)

/-- Fuel-indexed driver of the `execute` loop: `oracle n` is the result
of the `n`-th fetch issued; `none` means the loop is still running after
`fuel` body entries, i.e. `execute` has already issued at least `fetches`
requests without returning. -/
def agExecute (oracle : Nat → FetchOut) (shouldRetry : Nat → Int → Bool) (fallbackCount : Nat) :
    Nat → Int → Nat → Option AgResult
  | 0, _, _ => none
  | fuel + 1, urlIndex, fetches =>
    if urlIndex < (fallbackCount : Int) then
      match agBody shouldRetry fallbackCount (oracle fetches) urlIndex with
      | .continueAt u => agExecute oracle shouldRetry fallbackCount fuel u (fetches + 1)
      | .returned status => some (.returned status (fetches + 1))
      | .thrown => some (.threw (fetches + 1))
    else some (.threw fetches)


/-- The C3 counterexample start state: one fresh openai connection. -/
def c3State0 : AuthState := ⟨[mkConn "c1".data "openai".data], []⟩

/-- One 401 failure update of the C3 counterexample connection. -/
def c3Mark (st : AuthState) (now : Nat) : AuthState :=
  (markAccountUnavailable st "c1".data (some 401) "Invalid API key".data
    (some "openai".data) none now).1

/-! ## Helper lemmas -/

theorem firstMinBy_mem {α κ : Type} [LinearOrder κ] (f : α → κ) :
    ∀ {l : List α} {m : α}, firstMinBy f l = some m → m ∈ l := by
  intro l
  induction l with
  | nil => intro m h; simp [firstMinBy] at h
  | cons x xs ih =>
    intro m h
    rw [firstMinBy] at h
    split at h
    · injection h with h
      exact h ▸ List.mem_cons_self x xs
    · rename_i y hx
      split at h
      · injection h with h
        exact List.mem_cons_of_mem x (ih (h ▸ hx))
      · injection h with h
        exact h ▸ List.mem_cons_self x xs

theorem firstMinBy_eq_none_iff {α κ : Type} [LinearOrder κ] (f : α → κ) (l : List α) :
    firstMinBy f l = none ↔ l = [] := by
  cases l with
  | nil => simp [firstMinBy]
  | cons x xs =>
    rw [firstMinBy]
    cases hx : firstMinBy f xs with
    | none => simp
    | some y => by_cases hlt : f y < f x <;> simp [hlt]

theorem firstMinBy_le {α κ : Type} [LinearOrder κ] (f : α → κ) :
    ∀ {l : List α} {m : α}, firstMinBy f l = some m → ∀ a ∈ l, f m ≤ f a := by
  intro l
  induction l with
  | nil => intro m h; simp [firstMinBy] at h
  | cons x xs ih =>
    intro m h a ha
    rw [firstMinBy] at h
    split at h
    · rename_i hx
      injection h with h
      have hxs : xs = [] := (firstMinBy_eq_none_iff f xs).mp hx
      subst hxs
      have hax : a = x := by simpa using ha
      subst hax
      exact h ▸ le_refl _
    · rename_i y hx
      rcases List.mem_cons.mp ha with rfl | hmem
      · split at h
        · rename_i hlt
          injection h with h
          exact le_of_lt (h ▸ hlt)
        · injection h with h
          exact h ▸ le_refl _
      · split at h
        · injection h with h
          exact ih (h ▸ hx) a hmem
        · rename_i hlt
          injection h with h
          subst h
          exact le_trans (le_of_not_lt hlt) (ih hx a hmem)

theorem firstMinBy_eq_of_strict_min {α κ : Type} [LinearOrder κ] (f : α → κ) :
    ∀ {l : List α} {m : α}, m ∈ l → (∀ a ∈ l, a ≠ m → f m < f a) → firstMinBy f l = some m := by
  intro l
  induction l with
  | nil => intro m h; simp at h
  | cons x xs ih =>
    intro m hm hmin
    rcases List.mem_cons.mp hm with rfl | hmem
    · cases hx : firstMinBy f xs with
      | none => simp [firstMinBy, hx]
      | some y =>
        have hy : y ∈ xs := firstMinBy_mem f hx
        by_cases hym : y = m
        · subst hym; simp [firstMinBy, hx, lt_irrefl]
        · have hlt : f m < f y := hmin y (List.mem_cons_of_mem _ hy) hym
          simp [firstMinBy, hx, not_lt_of_gt hlt]
    · by_cases hxm : x = m
      · subst hxm
        cases hx : firstMinBy f xs with
        | none => simp [firstMinBy, hx]
        | some y =>
          have hy : y ∈ xs := firstMinBy_mem f hx
          by_cases hym : y = x
          · subst hym; simp [firstMinBy, hx, lt_irrefl]
          · have hlt : f x < f y := hmin y (List.mem_cons_of_mem _ hy) hym
            simp [firstMinBy, hx, not_lt_of_gt hlt]
      · have hxs : firstMinBy f xs = some m :=
          ih hmem (fun a ha ham => hmin a (List.mem_cons_of_mem _ ha) ham)
        have hlt : f m < f x := hmin x (List.mem_cons_self _ _) hxm
        simp [firstMinBy, hxs, hlt]

theorem firstMinBy_lex_snd {α : Type} {κ₁ κ₂ : Type} [LinearOrder κ₁] [LinearOrder κ₂]
    (f : α → κ₁) (g : α → κ₂) :
    ∀ (l : List α), l.Pairwise (fun a b => g a ≤ g b) →
      firstMinBy (fun a => toLex (f a, g a)) l = firstMinBy f l := by
  intro l
  induction l with
  | nil => intro _; rfl
  | cons x xs ih =>
    intro hp
    have hp2 := (List.pairwise_cons.mp hp).2
    have hhead := (List.pairwise_cons.mp hp).1
    rw [firstMinBy, firstMinBy, ih hp2]
    cases hx : firstMinBy f xs with
    | none => rfl
    | some y =>
      dsimp only
      have hy : y ∈ xs := firstMinBy_mem f hx
      have hglt : ¬ g y < g x := not_lt_of_ge (hhead y hy)
      by_cases hlt : f y < f x
      · rw [if_pos hlt, if_pos (show toLex (f y, g y) < toLex (f x, g x) by
          rw [Prod.Lex.lt_iff]; exact Or.inl hlt)]
      · rw [if_neg hlt, if_neg (show ¬ toLex (f y, g y) < toLex (f x, g x) by
          rw [Prod.Lex.lt_iff]
          push_neg
          exact ⟨le_of_not_lt hlt, fun _ => le_of_not_lt hglt⟩)]

theorem getLast?_append_concat {α : Type} (l₁ l₂ : List α) (x : α) :
    (l₁ ++ (l₂ ++ [x])).getLast? = some x := by
  simp [List.getLast?_append, List.getLast?_concat]

/-! ## Claim C5: antigravity auto-retry bound (code bug) -/

/-- Claim C5 (refuted by the code, supporting the code_bug verdict): when
every fetch returns HTTP 429 with no usable Retry-After value,
`AntigravityExecutor.execute` never returns: for every fuel bound the
loop is still running, having issued one fetch per body entry, because
`let retryAttempts = 0` sits inside the loop body, so the auto-retry
counter is reset on each pass and `retryAttempts < MAX_AUTO_RETRIES`
always holds.  The number of fetch attempts of a single `execute` call is
therefore unbounded, contradicting the claimed bound of 2 retries. -/
theorem c5_auto_retry_unbounded (fallbackCount : Nat) (shouldRetry : Nat → Int → Bool)
    (hfc : 1 ≤ fallbackCount) :
    ∀ (fuel fetches : Nat),
      agExecute (fun _ => .resp 429 none) shouldRetry fallbackCount fuel 0 fetches = none := by
  intro fuel
  induction fuel with
  | zero => intro fetches; rfl
  | succ n ih =>
    intro fetches
    rw [agExecute]
    have h0 : (0 : Int) < (fallbackCount : Int) := by exact_mod_cast hfc
    rw [if_pos h0]
    have hbody : agBody shouldRetry fallbackCount (.resp 429 none) 0 = .continueAt 0 := by
      simp [agBody, MAX_AUTO_RETRIES]
    rw [hbody]
    exact ih (fetches + 1)

/-- Witness for `c5_auto_retry_unbounded` at a concrete input. -/
theorem c5_auto_retry_unbounded_witness :
    1 ≤ 3 ∧
      agExecute (fun _ => .resp 429 none) (fun _ _ => false) 3 25 0 0 = none :=
  ⟨by decide, c5_auto_retry_unbounded 3 (fun _ _ => false) (by decide) 25 0⟩

/-! ## Claim C1: stream terminator -/

/-- Claim C1 as amended: in both TRANSLATE and PASSTHROUGH modes, for
every upstream input and every translator/normaliser behaviour, the chunk
sequence enqueued toward the client ends with the `data: [DONE]\n\n`
terminator, which the flush appends unconditionally - but (see the
counterexample) it need not occur exactly once, since upstream `[DONE]`
sentinels are forwarded in TRANSLATE mode. -/
theorem c1_stream_ends_with_done {σ π : Type} (tr : Translator σ) (pn : PassNormalizer π)
    (targetFormat sourceFormat : Format) (input : List Str) :
    (runTranslateStream tr targetFormat sourceFormat input).getLast? = some doneChunk ∧
    (runPassthroughStream pn input).getLast? = some doneChunk := by
  constructor
  · rw [runTranslateStream, flushTranslate]
    exact getLast?_append_concat _ _ _
  · rw [runPassthroughStream, flushPassthrough]
    exact getLast?_append_concat _ _ _

/-- Counterexample to claim C1 as stated: an upstream stream consisting
of exactly one `[DONE]` sentinel, processed in TRANSLATE mode with a
translator whose flush emits nothing, yields TWO terminator chunks (the
forwarded sentinel and the flush-appended one), so the chunk sequence
does not end with exactly one terminator. -/
theorem c1_counterexample :
    runTranslateStream trivialTranslator .OPENAI .OPENAI ["data: [DONE]\n\n".data] =
      [doneChunk, doneChunk] ∧
    ¬ endsWithExactlyOneDone
      (runTranslateStream trivialTranslator .OPENAI .OPENAI ["data: [DONE]\n\n".data]) := by
  constructor
  · decide
  · intro h
    have h2 := h.2
    rw [show runTranslateStream trivialTranslator .OPENAI .OPENAI ["data: [DONE]\n\n".data] =
      [doneChunk, doneChunk] from by decide] at h2
    simp [List.count_cons] at h2

/-! ## Claim C7: mid-stream format auto-detection -/

/-- Claim C7: `detectResponseFormat` checks the structural markers in the
stated priority order (a `type` beginning with `response.` wins, then the
presence of `choices`, then any other `type`, then `candidates`), and a
detected format that differs from the configured target is cached in
`state.detectedFormat` by `resolveActualTargetFormat` and used in place
of the target for every subsequent chunk translation and for the
terminal flush. -/
theorem c7_format_detection_and_caching :
    (∀ c t, c.typeField = some t → "response.".data.isPrefixOf t = true →
      detectResponseFormat c = some .OPENAI_RESPONSES) ∧
    (∀ c, (∀ t, c.typeField = some t → "response.".data.isPrefixOf t = false) →
      c.hasChoices = true → detectResponseFormat c = some .OPENAI) ∧
    (∀ c t, c.typeField = some t → "response.".data.isPrefixOf t = false →
      c.hasChoices = false → detectResponseFormat c = some .CLAUDE) ∧
    (∀ c, c.typeField = none → c.hasChoices = false → c.hasCandidates = true →
      detectResponseFormat c = some .GEMINI) ∧
    (∀ (σ : Type) (st : EState σ) c tf d, st.detectedFormat = none →
      detectResponseFormat c = some d → d ≠ tf →
      resolveActualTargetFormat c tf st = (d, { st with detectedFormat := some d })) ∧
    (∀ (σ : Type) (st : EState σ) c tf f, st.detectedFormat = some f →
      resolveActualTargetFormat c tf st = (f, st)) ∧
    (∀ (σ : Type) (tr : Translator σ) tf sf line (st : EState σ) f,
      st.detectedFormat = some f →
      (processTranslateLine tr tf sf line st).2.detectedFormat = some f) ∧
    (∀ (σ : Type) (tr : Translator σ) tf sf line (st : EState σ) c f,
      st.detectedFormat = some f → jsTrim line ≠ [] →
      tr.parseLine (jsTrim line) = some (.chunk c) →
      processTranslateLine tr tf sf line st =
        ((tr.translateResponse f sf c st.inner).1,
         { st with inner := (tr.translateResponse f sf c st.inner).2 })) ∧
    (∀ (σ : Type) (tr : Translator σ) tf sf buffer (st : EState σ) f,
      st.detectedFormat = some f →
      flushTranslate tr tf sf buffer st =
        (flushLeftover tr tf sf buffer st).1 ++
        tr.flushResponse f sf (flushLeftover tr tf sf buffer st).2.inner ++ [doneChunk]) := by
  refine ⟨?_, ?_, ?_, ?_, ?_, ?_, ?_, ?_, ?_⟩
  · intro c t ht hpre
    simp [detectResponseFormat, ht, hpre]
  · intro c hnot hch
    cases ht : c.typeField with
    | none => simp [detectResponseFormat, ht, hch]
    | some t => simp [detectResponseFormat, ht, hnot t ht, hch]
  · intro c t ht hpre hch
    simp [detectResponseFormat, ht, hpre, hch]
  · intro c ht hch hca
    simp [detectResponseFormat, ht, hch, hca]
  · intro σ st c tf d hst hd hne
    simp [resolveActualTargetFormat, hst, hd, hne]
  · intro σ st c tf f hst
    simp [resolveActualTargetFormat, hst]
  · intro σ tr tf sf line st f hst
    rw [processTranslateLine]
    by_cases htrim : jsTrim line = []
    · simp [htrim, hst]
    · rw [if_neg htrim]
      cases hp : tr.parseLine (jsTrim line) with
      | none => simpa using hst
      | some pl =>
        cases pl with
        | done => simpa using hst
        | chunk c => simp [resolveActualTargetFormat, hst]
  · intro σ tr tf sf line st c f hst htrim hp
    rw [processTranslateLine, if_neg htrim, hp]
    simp [resolveActualTargetFormat, hst]
  · intro σ tr tf sf buffer st f hst
    rw [flushTranslate]
    have : (flushLeftover tr tf sf buffer st).2.detectedFormat = some f := by
      rw [flushLeftover]
      by_cases htrim : jsTrim buffer ≠ []
      · rw [if_pos htrim]
        cases hp : tr.parseLine (jsTrim buffer) with
        | none => exact hst
        | some pl =>
          cases pl with
          | done => exact hst
          | chunk c => simp [resolveActualTargetFormat, hst]
      · rw [if_neg htrim]; exact hst
    rw [this]
    rfl

/-- Witness for `c7_format_detection_and_caching` at concrete inputs. -/
theorem c7_format_detection_witness :
    detectResponseFormat ⟨some "response.output_text.delta".data, false, false⟩ =
      some .OPENAI_RESPONSES ∧
    detectResponseFormat ⟨some "message_start".data, false, false⟩ = some .CLAUDE ∧
    resolveActualTargetFormat (σ := Unit) ⟨some "message_start".data, false, false⟩ .OPENAI
      ⟨none, ()⟩ = (.CLAUDE, ⟨some .CLAUDE, ()⟩) ∧
    resolveActualTargetFormat (σ := Unit) ⟨none, true, false⟩ .CLAUDE ⟨some .GEMINI, ()⟩ =
      (.GEMINI, ⟨some .GEMINI, ()⟩) :=
  ⟨c7_format_detection_and_caching.1 _ "response.output_text.delta".data rfl (by decide),
   c7_format_detection_and_caching.2.2.1 _ "message_start".data rfl (by decide) (by decide),
   c7_format_detection_and_caching.2.2.2.2.1 Unit ⟨none, ()⟩ _ _ .CLAUDE rfl (by decide)
     (by decide),
   c7_format_detection_and_caching.2.2.2.2.2.1 Unit ⟨some .GEMINI, ()⟩ _ _ _ rfl⟩

theorem find?_filter_of_find? {α : Type} {p q : α → Bool} :
    ∀ {l : List α} {a : α}, l.find? p = some a → q a = true → (l.filter q).find? p = some a := by
  intro l
  induction l with
  | nil => intro a h; simp at h
  | cons x xs ih =>
    intro a h hq
    rw [List.find?_cons] at h
    cases hpx : p x with
    | true =>
      rw [hpx] at h
      injection h with h
      subst h
      rw [List.filter_cons, if_pos hq, List.find?_cons, hpx]
    | false =>
      rw [hpx] at h
      rw [List.filter_cons]
      by_cases hqx : q x = true
      · rw [if_pos hqx, List.find?_cons, hpx]
        exact ih h hq
      · rw [if_neg hqx]
        exact ih h hq

theorem find?_updateConnById (conns : List Conn) (cid : Str) (f : Conn → Conn)
    (hid : ∀ c, (f c).id = c.id) :
    (updateConnById conns cid f).find? (fun c => decide (c.id = cid)) =
      (conns.find? (fun c => decide (c.id = cid))).map f := by
  induction conns with
  | nil => rfl
  | cons x xs ih =>
    rw [updateConnById, List.map_cons, List.find?_cons, List.find?_cons]
    by_cases hx : x.id = cid
    · rw [if_pos hx]
      have h1 : (decide ((f x).id = cid)) = true := by rw [hid x]; exact decide_eq_true hx
      have h2 : (decide (x.id = cid)) = true := decide_eq_true hx
      rw [h1, h2]
      rfl
    · rw [if_neg hx]
      have h2 : (decide (x.id = cid)) = false := decide_eq_false hx
      rw [h2]
      exact ih

theorem backoffOf_eq_of_find? {conns : List Conn} {cid : Str} {conn : Conn}
    (h : conns.find? (fun c => decide (c.id = cid)) = some conn) :
    backoffOf conns cid = conn.backoffLevel.getD 0 := by
  rw [backoffOf, h]

theorem checkFallbackError_newLevel (status : Option Nat) (errorText : Str) (b : Nat) :
    (checkFallbackError status errorText b).newBackoffLevel = none ∨
      (checkFallbackError status errorText b).newBackoffLevel = some (b + 1) := by
  rw [checkFallbackError.eq_def]
  by_cases hrl : matchesRateLimitToken errorText = true ∨ status = some 429
  · rw [if_pos hrl]; right; rfl
  · rw [if_neg hrl]
    cases status with
    | none => left; rfl
    | some s =>
      dsimp only
      by_cases h1 : s = 401 ∨ s = 403
      · rw [if_pos h1]; left; rfl
      · rw [if_neg h1]
        by_cases h2 : s = 402
        · rw [if_pos h2]; left; rfl
        · rw [if_neg h2]
          by_cases h3 : 500 ≤ s
          · rw [if_pos h3]; left; rfl
          · rw [if_neg h3]; left; rfl

theorem checkFallbackError_rateLimited (status : Option Nat) (errorText : Str) (b : Nat)
    (hrl : matchesRateLimitToken errorText = true ∨ status = some 429) :
    checkFallbackError status errorText b =
      ⟨true, min (60000 * 2 ^ b) 3600000, some (b + 1)⟩ := by
  rw [checkFallbackError.eq_def, if_pos hrl]

theorem checkFallbackError_cooldown_pos (status : Option Nat) (errorText : Str) (b : Nat)
    (h : (checkFallbackError status errorText b).shouldFallback = true) :
    0 < (checkFallbackError status errorText b).cooldownMs := by
  rw [checkFallbackError.eq_def] at h ⊢
  by_cases hrl : matchesRateLimitToken errorText = true ∨ status = some 429
  · rw [if_pos hrl]
    have h1 : 0 < 60000 * 2 ^ b := by positivity
    simp [lt_min_iff, h1]
  · rw [if_neg hrl] at h ⊢
    cases status with
    | none => norm_num
    | some s =>
      dsimp only at h ⊢
      by_cases h1 : s = 401 ∨ s = 403
      · rw [if_pos h1]; norm_num
      · rw [if_neg h1] at h ⊢
        by_cases h2 : s = 402
        · rw [if_pos h2]; norm_num
        · rw [if_neg h2] at h ⊢
          by_cases h3 : 500 ≤ s
          · rw [if_pos h3]; norm_num
          · rw [if_neg h3] at h; simp at h

/-! ## Claim C4: the AllRateLimited client response -/

/-- Counterexample to claim C4 as stated: when the earliest rate-limited
connection carries `errorCode = 429` and no in-request failure preceded
the selection, the response status is 429, not 503 - the source computes
`lastStatus || Number(credentials.lastErrorCode) || 503`. -/
theorem c4_counterexample :
    (allRateLimitedResponse "openai".data "gpt-4o".data none none 61000
      (some "rate limited".data) (some 429) "reset in 1m".data 1000).status = 429 ∧
    (429 : Nat) ≠ 503 := by
  constructor
  · rfl
  · decide

/-- Claim C4 as amended: on `AllRateLimited` the pipeline responds with a
`Retry-After` header of `max(ceil((retryAfter - now)/1000), 1)` seconds
(never below 1) and a JSON error body naming the provider, the model, the
effective last error and the human-readable reset time; the HTTP status
however is `lastStatus || Number(lastErrorCode) || 503` - it is 503 only
when no in-request failure status was recorded and the earliest
rate-limited connection carries no non-zero numeric `errorCode`. -/
theorem c4_amended (provider model : Str) (lastError : Option Str) (lastStatus : Option Nat)
    (retryAfter : Nat) (credLastError : Option Str) (credLastErrorCode : Option Nat)
    (human : Str) (now : Nat) (r : HttpResponse)
    (hr : r = allRateLimitedResponse provider model lastError lastStatus retryAfter
      credLastError credLastErrorCode human now) :
    r.status = jsOrNat lastStatus (jsOrNat credLastErrorCode 503) ∧
    ((lastStatus = none ∨ lastStatus = some 0) →
      (credLastErrorCode = none ∨ credLastErrorCode = some 0) → r.status = 503) ∧
    r.retryAfter = some (natToStr (max (ceilDivMs ((retryAfter : Int) - (now : Int))) 1).toNat) ∧
    1 ≤ (max (ceilDivMs ((retryAfter : Int) - (now : Int))) 1) ∧
    provider <:+: r.body ∧ model <:+: r.body ∧ human <:+: r.body ∧
    jsOrStr lastError (jsOrStr credLastError "Unavailable".data) <:+: r.body := by
  subst hr
  refine ⟨rfl, ?_, rfl, le_max_right _ _, ?_, ?_, ?_, ?_⟩
  · intro h1 h2
    rcases h1 with rfl | rfl <;> rcases h2 with rfl | rfl <;> rfl
  · exact ⟨"\x7b\"error\":\x7b\"message\":\"".data ++ "[".data,
      "/".data ++ model ++ "] ".data ++
        jsOrStr lastError (jsOrStr credLastError "Unavailable".data) ++ " (".data ++ human ++
        ")".data ++ "\"\x7d\x7d".data,
      by simp [allRateLimitedResponse, jsonErrorBody]⟩
  · exact ⟨"\x7b\"error\":\x7b\"message\":\"".data ++ "[".data ++ provider ++ "/".data,
      "] ".data ++ jsOrStr lastError (jsOrStr credLastError "Unavailable".data) ++ " (".data ++
        human ++ ")".data ++ "\"\x7d\x7d".data,
      by simp [allRateLimitedResponse, jsonErrorBody]⟩
  · exact ⟨"\x7b\"error\":\x7b\"message\":\"".data ++ "[".data ++ provider ++ "/".data ++
        model ++ "] ".data ++ jsOrStr lastError (jsOrStr credLastError "Unavailable".data) ++
        " (".data,
      ")".data ++ "\"\x7d\x7d".data,
      by simp [allRateLimitedResponse, jsonErrorBody]⟩
  · exact ⟨"\x7b\"error\":\x7b\"message\":\"".data ++ "[".data ++ provider ++ "/".data ++
        model ++ "] ".data,
      " (".data ++ human ++ ")".data ++ "\"\x7d\x7d".data,
      by simp [allRateLimitedResponse, jsonErrorBody]⟩

/-- Witness for `c4_amended` at a concrete input. -/
theorem c4_amended_witness :
    (allRateLimitedResponse "openai".data "gpt-4o".data none none 61000 none none
      "reset in 1m".data 1000).status = 503 ∧
    "gpt-4o".data <:+:
      (allRateLimitedResponse "openai".data "gpt-4o".data none none 61000 none none
        "reset in 1m".data 1000).body :=
  ⟨(c4_amended "openai".data "gpt-4o".data none none 61000 none none "reset in 1m".data 1000 _
      rfl).2.1 (Or.inl rfl) (Or.inl rfl),
   (c4_amended "openai".data "gpt-4o".data none none 61000 none none "reset in 1m".data 1000 _
      rfl).2.2.2.2.2.1⟩

/-! ## Claim C3: backoffLevel monotonicity -/

/-- Counterexample to claim C3 as stated: two consecutive 401 failure
updates of the same connection (no intervening success) both leave
`backoffLevel` at 0, because the fallback policy reports a
`newBackoffLevel` only for the 429 class and `markAccountUnavailable`
otherwise keeps the old level (`newBackoffLevel ?? backoffLevel`) - so
`backoffLevel` after the second failure is not strictly greater.  The
conjuncts also record that both updates really were fallback failure
updates that marked the connection unavailable. -/
theorem c3_counterexample :
    (markAccountUnavailable c3State0 "c1".data (some 401) "Invalid API key".data
      (some "openai".data) none 1000).2.shouldFallback = true ∧
    (markAccountUnavailable (c3Mark c3State0 1000) "c1".data (some 401)
      "Invalid API key".data (some "openai".data) none 2000).2.shouldFallback = true ∧
    backoffOf (c3Mark c3State0 1000).conns "c1".data = 0 ∧
    backoffOf (c3Mark (c3Mark c3State0 1000) 2000).conns "c1".data = 0 ∧
    ¬ (backoffOf (c3Mark (c3Mark c3State0 1000) 2000).conns "c1".data >
        backoffOf (c3Mark c3State0 1000).conns "c1".data) := by
  decide

/-- Claim C3 as amended: across failure updates of a connection,
`backoffLevel` never decreases; it strictly increases (by exactly 1) on
failures classified as rate-limit (HTTP 429, or a rate-limit token in the
error text) that take the DB-update path; failures with any other status
leave it unchanged (shown by the counterexample); and `clearAccountError`
resets it to 0 whenever the connection carries an error marker. -/
theorem c3_backoff_amended :
    (∀ (st : AuthState) (cid : Str) (status : Option Nat) (errorText : Str)
       (provider model : Option Str) (now : Nat) (conn : Conn),
      st.conns.find? (fun c => decide (c.id = cid)) = some conn →
      provider = some conn.provider →
      backoffOf (markAccountUnavailable st cid status errorText provider model now).1.conns cid ≥
        backoffOf st.conns cid) ∧
    (∀ (st : AuthState) (cid : Str) (status : Option Nat) (errorText : Str)
       (provider model : Option Str) (now : Nat) (conn : Conn),
      st.conns.find? (fun c => decide (c.id = cid)) = some conn →
      provider = some conn.provider →
      (matchesRateLimitToken errorText = true ∨ status = some 429) →
      ¬ (isMultiBucketProvider provider = true ∧ status = some 429 ∧ truthyStr model = true) →
      backoffOf (markAccountUnavailable st cid status errorText provider model now).1.conns cid =
        backoffOf st.conns cid + 1) ∧
    (∀ (st : AuthState) (cid : Str) (current : Conn) (conn : Conn),
      (current.testStatus = some "unavailable".data ∨ truthyStr current.lastError = true ∨
        current.rateLimitedUntil.isSome = true) →
      st.conns.find? (fun c => decide (c.id = cid)) = some conn →
      backoffOf (clearAccountError st cid current).conns cid = 0) := by
  have hfilter : ∀ (st : AuthState) (cid : Str) (conn : Conn),
      st.conns.find? (fun c => decide (c.id = cid)) = some conn →
      (st.conns.filter (fun c => decide (c.provider = conn.provider))).find?
        (fun c => decide (c.id = cid)) = some conn := by
    intro st cid conn hfind
    exact find?_filter_of_find? hfind (decide_eq_true rfl)
  have hchar : ∀ (st : AuthState) (cid : Str) (status : Option Nat) (errorText : Str)
      (model : Option Str) (now : Nat) (conn : Conn),
      st.conns.find? (fun c => decide (c.id = cid)) = some conn →
      backoffOf (markAccountUnavailable st cid status errorText (some conn.provider) model
          now).1.conns cid =
        (if (checkFallbackError status errorText (conn.backoffLevel.getD 0)).shouldFallback
            = false then conn.backoffLevel.getD 0
         else if isMultiBucketProvider (some conn.provider) ∧ status = some 429 ∧
            truthyStr model then conn.backoffLevel.getD 0
         else (checkFallbackError status errorText
            (conn.backoffLevel.getD 0)).newBackoffLevel.getD (conn.backoffLevel.getD 0)) := by
    intro st cid status errorText model now conn hfind
    rw [markAccountUnavailable]
    dsimp only
    rw [backoffOf_eq_of_find? (hfilter st cid conn hfind)]
    set b := conn.backoffLevel.getD 0 with hb
    by_cases hsf : (checkFallbackError status errorText b).shouldFallback = false
    · rw [if_pos hsf, if_pos hsf]
      exact backoffOf_eq_of_find? hfind
    · rw [if_neg hsf, if_neg hsf]
      by_cases hmb : isMultiBucketProvider (some conn.provider) ∧ status = some 429 ∧
          truthyStr model
      · rw [if_pos hmb, if_pos hmb]
        exact backoffOf_eq_of_find? hfind
      · rw [if_neg hmb, if_neg hmb]
        dsimp only
        rw [backoffOf, find?_updateConnById st.conns cid
          (fun c => { c with rateLimitedUntil := some (getUnavailableUntil (checkFallbackError status errorText b).cooldownMs now), testStatus := some "unavailable".data, lastError := some (errorText.take 100), errorCode := status, lastErrorAt := some now, backoffLevel := some ((checkFallbackError status errorText b).newBackoffLevel.getD b) })
          (fun c => rfl), hfind]
        rfl
  refine ⟨?_, ?_, ?_⟩
  · intro st cid status errorText provider model now conn hfind hprov
    subst hprov
    rw [hchar st cid status errorText model now conn hfind,
      backoffOf_eq_of_find? hfind]
    set b := conn.backoffLevel.getD 0 with hb
    by_cases hsf : (checkFallbackError status errorText b).shouldFallback = false
    · rw [if_pos hsf]
    · rw [if_neg hsf]
      by_cases hmb : isMultiBucketProvider (some conn.provider) ∧ status = some 429 ∧
          truthyStr model
      · rw [if_pos hmb]
      · rw [if_neg hmb]
        rcases checkFallbackError_newLevel status errorText b with hnl | hnl
        · rw [hnl]
          exact le_refl b
        · rw [hnl]
          exact Nat.le_succ b
  · intro st cid status errorText provider model now conn hfind hprov hrl hnotmb
    subst hprov
    rw [hchar st cid status errorText model now conn hfind,
      backoffOf_eq_of_find? hfind]
    set b := conn.backoffLevel.getD 0 with hb
    have hd := checkFallbackError_rateLimited status errorText b hrl
    rw [hd]
    rw [if_neg (by simp)]
    rw [if_neg hnotmb]
    rfl
  · intro st cid current conn hase hfind
    rw [clearAccountError]
    dsimp only
    rw [if_pos hase]
    dsimp only
    rw [backoffOf, find?_updateConnById st.conns cid
      (fun c => { c with testStatus := some "active".data, lastError := none, lastErrorAt := none, rateLimitedUntil := none, backoffLevel := some 0 })
      (fun c => rfl), hfind]
    rfl

/-- Witness for `c3_backoff_amended` at concrete inputs: a 429 failure on
the fresh C3 connection bumps its backoff level from 0 to 1, and a clear
resets a marked connection to 0. -/
theorem c3_backoff_amended_witness :
    backoffOf ((markAccountUnavailable c3State0 "c1".data (some 429) "too many".data
      (some "openai".data) none 1000).1).conns "c1".data =
      backoffOf c3State0.conns "c1".data + 1 ∧
    backoffOf (clearAccountError (c3Mark c3State0 1000) "c1".data
      { mkConn "c1".data "openai".data with rateLimitedUntil := some 61000, testStatus := some "unavailable".data, lastError := some "Invalid API key".data, errorCode := some 401, lastErrorAt := some 1000, backoffLevel := some 0 }).conns
      "c1".data = 0 :=
  ⟨c3_backoff_amended.2.1 c3State0 "c1".data (some 429) "too many".data
      (some "openai".data) none 1000 (mkConn "c1".data "openai".data) (by decide) rfl
      (Or.inr rfl) (by decide),
   c3_backoff_amended.2.2 (c3Mark c3State0 1000) "c1".data
      { mkConn "c1".data "openai".data with rateLimitedUntil := some 61000, testStatus := some "unavailable".data, lastError := some "Invalid API key".data, errorCode := some 401, lastErrorAt := some 1000, backoffLevel := some 0 }
      { mkConn "c1".data "openai".data with rateLimitedUntil := some 61000, testStatus := some "unavailable".data, lastError := some "Invalid API key".data, errorCode := some 401, lastErrorAt := some 1000, backoffLevel := some 0 }
      (Or.inl rfl) (by decide)⟩

/-! ## Claim C6: multi-bucket 429 places only an in-memory model lock -/

theorem find?_congr_pred {α : Type} {p q : α → Bool} (h : ∀ a, p a = q a) :
    ∀ (l : List α), l.find? p = l.find? q := by
  intro l
  induction l with
  | nil => rfl
  | cons x xs ih =>
    rw [List.find?_cons, List.find?_cons, h x]
    cases q x with
    | true => rfl
    | false => exact ih

theorem locksGet_locksSet_self (locks : ModelLocks) (k : Str) (v : Nat) :
    locksGet (locksSet locks k v) k = some v := by
  rw [locksSet]
  by_cases hany : locks.any (fun e => decide (e.1 = k)) = true
  · rw [if_pos hany]
    rcases List.any_eq_true.mp hany with ⟨e, he, hpe⟩
    have hsome : (locks.find? (fun e => decide (e.1 = k))).isSome = true :=
      List.find?_isSome.mpr ⟨e, he, hpe⟩
    rcases Option.isSome_iff_exists.mp hsome with ⟨e0, he0⟩
    have hpe0 : (e0.1 = k) := by have hp0 := List.find?_some he0; simpa using hp0
    rw [locksGet, List.find?_map]
    have hcong : ∀ a : Str × Nat,
        ((fun e : Str × Nat => decide (e.1 = k)) ∘
          (fun e : Str × Nat => if e.1 = k then (e.1, v) else e)) a =
        (fun e : Str × Nat => decide (e.1 = k)) a := by
      intro a
      by_cases ha : a.1 = k
      · simp [ha]
      · simp [ha]
    rw [find?_congr_pred hcong, he0]
    simp [hpe0]
  · rw [if_neg hany]
    have hnone : locks.find? (fun e => decide (e.1 = k)) = none := by
      rw [List.find?_eq_none]
      intro x hx hpx
      exact hany (List.any_eq_true.mpr ⟨x, hx, hpx⟩)
    rw [locksGet, List.find?_append, hnone]
    simp [List.find?_cons]

theorem locksGet_locksSet_ne (locks : ModelLocks) (k : Str) (v : Nat) (k2 : Str)
    (h : k2 ≠ k) : locksGet (locksSet locks k v) k2 = locksGet locks k2 := by
  rw [locksSet]
  by_cases hany : locks.any (fun e => decide (e.1 = k)) = true
  · rw [if_pos hany]
    rw [locksGet, List.find?_map]
    have hcong : ∀ a : Str × Nat,
        ((fun e : Str × Nat => decide (e.1 = k2)) ∘
          (fun e : Str × Nat => if e.1 = k then (e.1, v) else e)) a =
        (fun e : Str × Nat => decide (e.1 = k2)) a := by
      intro a
      by_cases ha : a.1 = k
      · simp [ha]
      · simp [ha]
    rw [find?_congr_pred hcong]
    rw [locksGet]
    cases hf : locks.find? (fun e => decide (e.1 = k2)) with
    | none => rfl
    | some e0 =>
      have hpe0 : (e0.1 = k2) := by have hp0 := List.find?_some hf; simpa using hp0
      have hne : ¬ (e0.1 = k) := by rw [hpe0]; exact h
      simp [hne]
  · rw [if_neg hany]
    rw [locksGet, locksGet, List.find?_append]
    cases hf : locks.find? (fun e => decide (e.1 = k2)) with
    | none =>
      have hkk : decide (k = k2) = false := decide_eq_false (fun hh => h hh.symm)
      have : ((k, v) :: []).find? (fun e => decide (e.1 = k2)) = none := by
        rw [List.find?_cons]
        simp [hkk]
      simp [this]
    | some e0 => rfl

/-- Claim C6: for the multi-bucket provider `antigravity`, a 429 with a
known model that the fallback policy classifies as retryable changes no
persisted connection document at all - the connection list is returned
unchanged, every field included - and its only effect is the in-memory
lock on `(connectionId, model)` with expiry `now + cooldownMs` (or the
5-minute default when `cooldownMs` is 0); locks on every other
`(connection, model)` pair are untouched. -/
theorem c6_multibucket_lock_frame (st : AuthState) (cid : Str) (status : Option Nat)
    (errorText : Str) (provider model : Option Str) (now : Nat) (m : Str)
    (hcid : cid ≠ [])
    (hprov : provider = some "antigravity".data)
    (hstatus : status = some 429)
    (hmodel : model = some m) (hm : m ≠ [])
    (hsf : ∀ b, (checkFallbackError status errorText b).shouldFallback = true) :
    (markAccountUnavailable st cid status errorText provider model now).1.conns = st.conns ∧
    locksGet (markAccountUnavailable st cid status errorText provider model
        now).1.modelLocks (lockKeyOf cid m) =
      some (now + (if 0 < (checkFallbackError status errorText
          (backoffOf (st.conns.filter (fun c => decide (c.provider = "antigravity".data)))
            cid)).cooldownMs
        then (checkFallbackError status errorText
          (backoffOf (st.conns.filter (fun c => decide (c.provider = "antigravity".data)))
            cid)).cooldownMs
        else DEFAULT_MODEL_LOCK_MS)) ∧
    (∀ k, k ≠ lockKeyOf cid m →
      locksGet (markAccountUnavailable st cid status errorText provider model
        now).1.modelLocks k = locksGet st.modelLocks k) ∧
    (markAccountUnavailable st cid status errorText provider model now).2 =
      ⟨true, 0⟩ := by
  subst hprov hstatus hmodel
  rw [markAccountUnavailable]
  dsimp only
  rw [if_neg (by rw [hsf]; simp)]
  rw [if_pos ⟨by decide, rfl, by simpa [truthyStr] using hm⟩]
  dsimp only
  rw [lockModel, if_neg (by
    push_neg
    exact ⟨hcid, by simpa [Option.getD] using hm⟩)]
  refine ⟨rfl, ?_, ?_, rfl⟩
  · simpa using locksGet_locksSet_self st.modelLocks (lockKeyOf cid m) _
  · intro k hk
    simpa using locksGet_locksSet_ne st.modelLocks (lockKeyOf cid m) _ k hk

/-- Witness for `c6_multibucket_lock_frame` at a concrete input. -/
theorem c6_multibucket_lock_frame_witness :
    (markAccountUnavailable ⟨[mkConn "x1".data "antigravity".data], []⟩ "x1".data
      (some 429) "resource exhausted".data (some "antigravity".data)
      (some "claude-sonnet".data) 5000).1.conns = [mkConn "x1".data "antigravity".data] ∧
    (markAccountUnavailable ⟨[mkConn "x1".data "antigravity".data], []⟩ "x1".data
      (some 429) "resource exhausted".data (some "antigravity".data)
      (some "claude-sonnet".data) 5000).2 = ⟨true, 0⟩ :=
  ⟨(c6_multibucket_lock_frame ⟨[mkConn "x1".data "antigravity".data], []⟩ "x1".data
      (some 429) "resource exhausted".data (some "antigravity".data)
      (some "claude-sonnet".data) 5000 "claude-sonnet".data (by decide) rfl rfl rfl
      (by decide) (fun b => by rw [checkFallbackError.eq_def, if_pos (Or.inr rfl)])).1,
   (c6_multibucket_lock_frame ⟨[mkConn "x1".data "antigravity".data], []⟩ "x1".data
      (some 429) "resource exhausted".data (some "antigravity".data)
      (some "claude-sonnet".data) 5000 "claude-sonnet".data (by decide) rfl rfl rfl
      (by decide) (fun b => by rw [checkFallbackError.eq_def, if_pos (Or.inr rfl)])).2.2.2⟩

/-! ## Claim C9: API key roundtrip and single-character tampering -/

theorem splitOnChar_ne_nil (sep : Char) (l : Str) : splitOnChar sep l ≠ [] := by
  cases l with
  | nil => simp [splitOnChar]
  | cons c cs =>
    rw [splitOnChar]
    cases h : splitOnChar sep cs with
    | nil => simp
    | cons p ps => by_cases hc : c = sep <;> simp [hc]

theorem splitOnChar_no_sep (sep : Char) :
    ∀ (l : Str), sep ∉ l → splitOnChar sep l = [l] := by
  intro l
  induction l with
  | nil => intro _; rfl
  | cons c cs ih =>
    intro h
    have hc : ¬ (c = sep) := fun hh => h (hh ▸ List.mem_cons_self c cs)
    have hcs : sep ∉ cs := fun hh => h (List.mem_cons_of_mem c hh)
    rw [splitOnChar, ih hcs]
    simp [hc]

theorem splitOnChar_append_sep (sep : Char) :
    ∀ (a rest : Str), sep ∉ a →
      splitOnChar sep (a ++ sep :: rest) = a :: splitOnChar sep rest := by
  intro a
  induction a with
  | nil =>
    intro rest _
    rw [List.nil_append, splitOnChar]
    cases h : splitOnChar sep rest with
    | nil => exact absurd h (splitOnChar_ne_nil sep rest)
    | cons p ps => simp [h]
  | cons c cs ih =>
    intro rest h
    have hc : ¬ (c = sep) := fun hh => h (hh ▸ List.mem_cons_self c cs)
    have hcs : sep ∉ cs := fun hh => h (List.mem_cons_of_mem c hh)
    rw [List.cons_append, splitOnChar, ih rest hcs]
    simp [hc]

theorem getD_hexDigitList_ne_hyphen (n : Nat) : hexDigitList.getD n '0' ≠ '-' := by
  rw [List.getD_eq_getElem?_getD]
  cases h : hexDigitList[n]? with
  | none => decide
  | some c =>
    rcases List.getElem?_eq_some.mp h with ⟨hlt, hval⟩
    have hc : c ∈ hexDigitList := hval ▸ List.getElem_mem hlt
    have hall : ∀ x ∈ hexDigitList, x ≠ '-' := by decide
    simpa using hall c hc

theorem mem_byteToHex_ne_hyphen (b : Nat) (c : Char) (hc : c ∈ byteToHex b) : c ≠ '-' := by
  rw [byteToHex] at hc
  rcases List.mem_cons.mp hc with rfl | h2
  · exact getD_hexDigitList_ne_hyphen _
  · rcases List.mem_cons.mp h2 with rfl | h3
    · exact getD_hexDigitList_ne_hyphen _
    · simp at h3

theorem generateCrc_no_hyphen (m k : Str) : '-' ∉ generateCrc m k := by
  intro hmem
  rw [generateCrc] at hmem
  have h1 := List.take_subset 8 _ hmem
  rcases List.mem_flatten.mp h1 with ⟨piece, hpiece, hcpiece⟩
  rcases List.mem_map.mp hpiece with ⟨b, _, rfl⟩
  exact mem_byteToHex_ne_hyphen b '-' hcpiece rfl

theorem sha256_length (msg : List Nat) : (sha256 msg).length = 32 := by
  rw [sha256]
  simp [wordBytes]

theorem hmacSha256_length (key msg : List Nat) : (hmacSha256 key msg).length = 32 := by
  rw [hmacSha256]
  exact sha256_length _

theorem flatten_map_byteToHex_length (l : List Nat) :
    ((l.map byteToHex).flatten).length = 2 * l.length := by
  induction l with
  | nil => rfl
  | cons b bs ih =>
    rw [List.map_cons, List.flatten_cons, List.length_append, ih, List.length_cons]
    simp [byteToHex]
    ring

theorem generateCrc_length (m k : Str) : (generateCrc m k).length = 8 := by
  rw [generateCrc, List.length_take, flatten_map_byteToHex_length, hmacSha256_length]
  decide

theorem isPrefixOf_sk (rest : Str) :
    ("sk-".data.isPrefixOf ('s' :: 'k' :: '-' :: rest)) = true := by
  simp [List.isPrefixOf]

/-- Claim C9, first half (proved): for hyphen-free `machineId` and
`keyId`, parsing the formatted key recovers both with
`isNewFormat = true`. -/
theorem parse_format_roundtrip (m k : Str) (hm : '-' ∉ m) (hk : '-' ∉ k) :
    parseApiKey (formatApiKey m k) = some ⟨some m, k, true⟩ := by
  have hkey : formatApiKey m k =
      ['s', 'k'] ++ '-' :: (m ++ '-' :: (k ++ '-' :: generateCrc m k)) := rfl
  have hpre : ("sk-".data.isPrefixOf (formatApiKey m k)) = true := isPrefixOf_sk _
  rw [parseApiKey, if_neg (fun hC => hC hpre), hkey,
    splitOnChar_append_sep '-' ['s', 'k'] _ (by decide),
    splitOnChar_append_sep '-' m _ hm,
    splitOnChar_append_sep '-' k _ hk,
    splitOnChar_no_sep '-' _ (generateCrc_no_hyphen m k)]
  dsimp only
  rw [if_pos rfl]

/-- Claim C9, crc-field half of the amended tampering statement:
replacing any single character of the crc8 field by a different character
makes `parseApiKey` reject the key. -/
theorem parse_crc_tamper_rejected (m k : Str) (hm : '-' ∉ m) (hk : '-' ∉ k)
    (i : Nat) (c2 : Char) (hi : i < 8) (hc2 : c2 ≠ (generateCrc m k).getD i '0') :
    parseApiKey ("sk-".data ++ m ++ '-' :: (k ++ '-' :: (generateCrc m k).set i c2)) =
      none := by
  have hlen : (generateCrc m k).length = 8 := generateCrc_length m k
  have hpre : ("sk-".data.isPrefixOf
      ("sk-".data ++ m ++ '-' :: (k ++ '-' :: (generateCrc m k).set i c2))) = true :=
    isPrefixOf_sk _
  have hkey : "sk-".data ++ m ++ '-' :: (k ++ '-' :: (generateCrc m k).set i c2) =
      ['s', 'k'] ++ '-' :: (m ++ '-' :: (k ++ '-' :: (generateCrc m k).set i c2)) := rfl
  by_cases hdash : c2 = '-'
  · subst hdash
    have hset : (generateCrc m k).set i '-' =
        (generateCrc m k).take i ++ '-' :: (generateCrc m k).drop (i + 1) := by
      rw [List.set_eq_take_append_cons_drop, if_pos (by omega)]
    have htake : '-' ∉ (generateCrc m k).take i :=
      fun hmem => generateCrc_no_hyphen m k (List.take_subset _ _ hmem)
    have hdrop : '-' ∉ (generateCrc m k).drop (i + 1) :=
      fun hmem => generateCrc_no_hyphen m k (List.drop_subset _ _ hmem)
    rw [parseApiKey, if_neg (fun hC => hC hpre), hkey, hset,
      splitOnChar_append_sep '-' ['s', 'k'] _ (by decide),
      splitOnChar_append_sep '-' m _ hm,
      splitOnChar_append_sep '-' k _ hk,
      splitOnChar_append_sep '-' _ _ htake,
      splitOnChar_no_sep '-' _ hdrop]
  · have hnomem : '-' ∉ (generateCrc m k).set i c2 := by
      intro hmem
      rw [List.set_eq_take_append_cons_drop, if_pos (by omega)] at hmem
      rcases List.mem_append.mp hmem with h1 | h2
      · exact generateCrc_no_hyphen m k (List.take_subset _ _ h1)
      · rcases List.mem_cons.mp h2 with h3 | h4
        · exact hdash h3.symm
        · exact generateCrc_no_hyphen m k (List.drop_subset _ _ h4)
    have hgetD : ((generateCrc m k).set i c2).getD i '0' = c2 := by
      have hlt : i < ((generateCrc m k).set i c2).length := by
        rw [List.length_set]; omega
      rw [List.getD_eq_getElem?_getD, List.getElem?_eq_getElem hlt,
        List.getElem_set_self hlt]
      rfl
    have hne : ¬ ((generateCrc m k).set i c2 = generateCrc m k) := by
      intro heq
      apply hc2
      rw [← hgetD, heq]
    rw [parseApiKey, if_neg (fun hC => hC hpre), hkey,
      splitOnChar_append_sep '-' ['s', 'k'] _ (by decide),
      splitOnChar_append_sep '-' m _ hm,
      splitOnChar_append_sep '-' k _ hk,
      splitOnChar_no_sep '-' _ hnomem]
    dsimp only
    rw [if_neg hne]

/-- Claim C9 as amended: the roundtrip half of the claim holds verbatim,
and any single-character alteration of the crc8 field is rejected; but
single-character alterations inside machineId or keyId are rejected only
when the altered pair's truncated HMAC differs, which the counterexample
shows is not always the case. -/
theorem c9_key_roundtrip_amended :
    (∀ (m k : Str), '-' ∉ m → '-' ∉ k →
      parseApiKey (formatApiKey m k) = some ⟨some m, k, true⟩) ∧
    (∀ (m k : Str), '-' ∉ m → '-' ∉ k → ∀ (i : Nat) (c2 : Char), i < 8 →
      c2 ≠ (generateCrc m k).getD i '0' →
      parseApiKey ("sk-".data ++ m ++ '-' :: (k ++ '-' :: (generateCrc m k).set i c2)) =
        none) :=
  ⟨parse_format_roundtrip, fun m k hm hk i c2 hi hc2 =>
    parse_crc_tamper_rejected m k hm hk i c2 hi hc2⟩

set_option maxRecDepth 100000 in
/-- Witness for `c9_key_roundtrip_amended` at concrete inputs. -/
theorem c9_key_roundtrip_amended_witness :
    parseApiKey (formatApiKey "ab".data "cd".data) =
      some ⟨some "ab".data, "cd".data, true⟩ ∧
    parseApiKey ("sk-".data ++ "ab".data ++ '-' ::
      ("cd".data ++ '-' :: (generateCrc "ab".data "cd".data).set 0 'z')) = none :=
  ⟨c9_key_roundtrip_amended.1 "ab".data "cd".data (by decide) (by decide),
   c9_key_roundtrip_amended.2 "ab".data "cd".data (by decide) (by decide) 0 'z'
     (by decide) (by decide)⟩

set_option maxRecDepth 100000 in
/-- Counterexample to claim C9 as stated: the valid key
`sk-m17156547-k0-c2782b66` (which is exactly `formatApiKey "m17156547"
"k0"`) altered at the single machineId character `7` -> `Y` yields
`sk-m1715654Y-k0-c2782b66`, and `HMAC-SHA256(secret, "m1715654Yk0")`
happens to share its first 8 hex characters `c2782b66` with the original,
so `parseApiKey` ACCEPTS the altered key (as machineId `m1715654Y`)
instead of returning null. -/
theorem c9_counterexample :
    formatApiKey "m17156547".data "k0".data = "sk-m17156547-k0-c2782b66".data ∧
    "sk-m1715654Y-k0-c2782b66".data.length = "sk-m17156547-k0-c2782b66".data.length ∧
    hammingNe "sk-m1715654Y-k0-c2782b66".data "sk-m17156547-k0-c2782b66".data = 1 ∧
    parseApiKey "sk-m1715654Y-k0-c2782b66".data =
      some ⟨some "m1715654Y".data, "k0".data, true⟩ := by
  refine ⟨by decide, by decide, by decide, by decide⟩

/-! ## Claim C8: AllRateLimited carries the earliest expiry and its
bearer's error fields -/

theorem cloudRateLimitedResult_spec (l : List Conn) (now : Nat) (c : Conn) (t : Nat)
    (hc : c ∈ l) (ht : c.rateLimitedUntil = some t) (hfut : now < t) :
    ∃ (e : Nat) (b : Conn),
      cloudRateLimitedResult l now =
        some (.allRateLimited e (formatRetryAfter e now) b.lastError b.errorCode) ∧
      b ∈ l ∧ b.rateLimitedUntil = some e ∧ now < e ∧
      (∀ c2 ∈ l, ∀ t2, c2.rateLimitedUntil = some t2 → now < t2 → e ≤ t2) := by
  have htf : t ∈ ((l.filterMap (·.rateLimitedUntil)).filter (fun x => decide (now < x))) :=
    List.mem_filter.mpr ⟨List.mem_filterMap.mpr ⟨c, hc, ht⟩, decide_eq_true hfut⟩
  cases hE : getEarliestRateLimitedUntil l now with
  | none =>
    rw [getEarliestRateLimitedUntil] at hE
    have hnil := (firstMinBy_eq_none_iff id _).mp hE
    rw [hnil] at htf
    simp at htf
  | some e =>
    have hE2 : firstMinBy id ((l.filterMap (·.rateLimitedUntil)).filter
        (fun x => decide (now < x))) = some e := hE
    have hef := firstMinBy_mem id hE2
    have hemin : ∀ x ∈ ((l.filterMap (·.rateLimitedUntil)).filter
        (fun x => decide (now < x))), e ≤ x := by
      intro x hx
      simpa using firstMinBy_le id hE2 x hx
    have hefut : now < e := by
      have h2 := (List.mem_filter.mp hef).2
      simpa using h2
    rcases List.mem_filterMap.mp (List.mem_filter.mp hef).1 with ⟨be, hbe, hbeRLU⟩
    have hbeMem : be ∈ l.filter (fun x => isAccountUnavailable x.rateLimitedUntil now) :=
      List.mem_filter.mpr ⟨hbe, by simp [isAccountUnavailable, hbeRLU, hefut]⟩
    cases hB : firstMinBy (fun x => x.rateLimitedUntil.getD 0)
        (l.filter (fun x => isAccountUnavailable x.rateLimitedUntil now)) with
    | none =>
      have hnil := (firstMinBy_eq_none_iff _ _).mp hB
      rw [hnil] at hbeMem
      simp at hbeMem
    | some b =>
      have hbMem := firstMinBy_mem _ hB
      have hbAll : b ∈ l := (List.mem_filter.mp hbMem).1
      have hbUnav := (List.mem_filter.mp hbMem).2
      obtain ⟨tb, hbRLU, hbFut⟩ : ∃ tb, b.rateLimitedUntil = some tb ∧ now < tb := by
        cases hbr : b.rateLimitedUntil with
        | none => rw [isAccountUnavailable.eq_def, hbr] at hbUnav; simp at hbUnav
        | some tb =>
          refine ⟨tb, rfl, ?_⟩
          rw [isAccountUnavailable.eq_def, hbr] at hbUnav
          simpa using hbUnav
      have hble : tb ≤ e := by
        have hkey := firstMinBy_le _ hB be hbeMem
        simpa [hbRLU, hbeRLU] using hkey
      have htbf : tb ∈ ((l.filterMap (·.rateLimitedUntil)).filter
          (fun x => decide (now < x))) :=
        List.mem_filter.mpr ⟨List.mem_filterMap.mpr ⟨b, hbAll, hbRLU⟩, decide_eq_true hbFut⟩
      have htbe : tb = e := le_antisymm hble (hemin tb htbf)
      refine ⟨e, b, ?_, hbAll, htbe ▸ hbRLU, hefut, ?_⟩
      · rw [cloudRateLimitedResult, hE]
        dsimp only
        rw [hB]
        rfl
      · intro c2 hc2 t2 ht2 hfut2
        exact hemin t2 (List.mem_filter.mpr
          ⟨List.mem_filterMap.mpr ⟨c2, hc2, ht2⟩, decide_eq_true hfut2⟩)

/-- Claim C8: when every connection of the provider is filtered out
during the worker's credential selection and some active connection of
the provider has `rateLimitedUntil > now`, the result is AllRateLimited
carrying the earliest such `rateLimitedUntil` together with the
`lastError`/`errorCode` of the (first) connection bearing that earliest
expiry; only active connections of the provider enter this computation
(the bearer is one, and the minimality ranges exactly over them). -/
theorem c8_all_rate_limited_earliest (data : CloudData) (provider : Str)
    (exclude : Option Str) (now : Nat) (c : Conn) (t : Nat)
    (hempty : cloudEligible data provider exclude now = [])
    (hc : c ∈ data.providers) (hcp : c.provider = provider) (hact : c.isActive = true)
    (ht : c.rateLimitedUntil = some t) (hfut : now < t) :
    ∃ (e : Nat) (b : Conn),
      getProviderCredentialsCloud (some data) provider exclude now =
        some (.allRateLimited e (formatRetryAfter e now) b.lastError b.errorCode) ∧
      b ∈ data.providers ∧ b.provider = provider ∧ b.isActive = true ∧
      b.rateLimitedUntil = some e ∧ now < e ∧
      (∀ c2 ∈ data.providers, c2.provider = provider → c2.isActive = true →
        ∀ t2, c2.rateLimitedUntil = some t2 → now < t2 → e ≤ t2) := by
  have hcall : c ∈ cloudAllConnections data provider :=
    List.mem_filter.mpr ⟨hc, by rw [hcp]; simp [hact]⟩
  obtain ⟨e, b, heq, hbmem, hbrlu, hefut, hmin⟩ :=
    cloudRateLimitedResult_spec (cloudAllConnections data provider) now c t hcall ht hfut
  have hbfilter := List.mem_filter.mp hbmem
  have hbprops : (decide (b.provider = provider) && b.isActive) = true := hbfilter.2
  refine ⟨e, b, ?_, hbfilter.1, ?_, ?_, hbrlu, hefut, ?_⟩
  · rw [getProviderCredentialsCloud, hempty]
    exact heq
  · have h2 : b.provider = provider ∧ b.isActive = true := by simpa using hbprops
    exact h2.1
  · have h2 : b.provider = provider ∧ b.isActive = true := by simpa using hbprops
    exact h2.2
  · intro c2 hc2 hcp2 hact2 t2 ht2 hfut2
    exact hmin c2 (List.mem_filter.mpr ⟨hc2, by rw [hcp2]; simp [hact2]⟩) t2 ht2 hfut2

/-- Witness for `c8_all_rate_limited_earliest` at a concrete input: two
rate-limited connections; the earlier expiry (7000, with error fields of
connection `rl1`) is reported. -/
theorem c8_all_rate_limited_witness :
    ∃ (e : Nat) (b : Conn),
      getProviderCredentialsCloud
        (some ⟨[{ mkConn "rl1".data "openai".data with rateLimitedUntil := some 7000, lastError := some "quota hit".data, errorCode := some 429 }, { mkConn "rl2".data "openai".data with rateLimitedUntil := some 9000 }]⟩)
        "openai".data none 5000 =
        some (.allRateLimited e (formatRetryAfter e 5000) b.lastError b.errorCode) ∧
      b ∈ [{ mkConn "rl1".data "openai".data with rateLimitedUntil := some 7000, lastError := some "quota hit".data, errorCode := some 429 }, { mkConn "rl2".data "openai".data with rateLimitedUntil := some 9000 }] ∧
      b.provider = "openai".data ∧ b.isActive = true ∧
      b.rateLimitedUntil = some e ∧ 5000 < e ∧
      (∀ c2 ∈ [{ mkConn "rl1".data "openai".data with rateLimitedUntil := some 7000, lastError := some "quota hit".data, errorCode := some 429 }, { mkConn "rl2".data "openai".data with rateLimitedUntil := some 9000 }], c2.provider = "openai".data → c2.isActive = true →
        ∀ t2, c2.rateLimitedUntil = some t2 → 5000 < t2 → e ≤ t2) :=
  c8_all_rate_limited_earliest
    ⟨[{ mkConn "rl1".data "openai".data with rateLimitedUntil := some 7000, lastError := some "quota hit".data, errorCode := some 429 }, { mkConn "rl2".data "openai".data with rateLimitedUntil := some 9000 }]⟩
    "openai".data none 5000
    { mkConn "rl1".data "openai".data with rateLimitedUntil := some 7000, lastError := some "quota hit".data, errorCode := some 429 }
    7000 (by decide) (by decide) rfl rfl rfl (by decide)

/-! ## Claim C2: sticky round-robin selection -/

theorem rrCurrent_unique_max (avail : List Conn) (cur : Conn) (t : Nat)
    (hmem : cur ∈ avail) (hcur : cur.lastUsedAt = some t)
    (hmax : ∀ c ∈ avail, ∀ t2, c.lastUsedAt = some t2 → t2 ≤ t)
    (huniq : ∀ c ∈ avail, c.lastUsedAt = some t → c = cur) :
    rrCurrent avail = some cur := by
  apply firstMinBy_eq_of_strict_min recencyKey hmem
  intro a ha hane
  cases hal : a.lastUsedAt with
  | none =>
    rw [recencyKey, recencyKey, hcur, hal]
    rw [Prod.Lex.lt_iff]
    exact Or.inl (by norm_num)
  | some t2 =>
    have ht2 : t2 ≤ t := hmax a ha t2 hal
    have ht2ne : t2 ≠ t := fun hh => hane (huniq a ha (hh ▸ hal))
    have ht2lt : t2 < t := lt_of_le_of_ne ht2 ht2ne
    rw [recencyKey, recencyKey, hcur, hal]
    rw [Prod.Lex.lt_iff]
    refine Or.inr ⟨rfl, ?_⟩
    simp only [neg_lt_neg_iff]
    exact_mod_cast ht2lt

theorem roundRobinSelect_sticky (L : Nat) (avail : List Conn) (cur : Conn) (t : Nat)
    (hmem : cur ∈ avail) (hcur : cur.lastUsedAt = some t)
    (hmax : ∀ c ∈ avail, ∀ t2, c.lastUsedAt = some t2 → t2 ≤ t)
    (huniq : ∀ c ∈ avail, c.lastUsedAt = some t → c = cur)
    (hlt : effCount cur < L) :
    roundRobinSelect L avail = some (cur, effCount cur + 1) := by
  rw [roundRobinSelect, rrCurrent_unique_max avail cur t hmem hcur hmax huniq]
  dsimp only
  rw [if_pos ⟨by rw [hcur]; rfl, hlt⟩]

theorem roundRobinSelect_switch (L : Nat) (avail : List Conn)
    (hcase : (∀ c ∈ avail, c.lastUsedAt = none) ∨
      (∃ cur t, cur ∈ avail ∧ cur.lastUsedAt = some t ∧
        (∀ c ∈ avail, ∀ t2, c.lastUsedAt = some t2 → t2 ≤ t) ∧
        (∀ c ∈ avail, c.lastUsedAt = some t → c = cur) ∧ L ≤ effCount cur)) :
    roundRobinSelect L avail = (rrOldest avail).map (fun c => (c, 1)) := by
  rcases hcase with hnone | ⟨cur, t, hmem, hcur, hmax, huniq, hge⟩
  · rw [roundRobinSelect]
    cases hc : rrCurrent avail with
    | none => rfl
    | some c0 =>
      have hc0 : c0 ∈ avail := firstMinBy_mem recencyKey hc
      have hn0 : c0.lastUsedAt = none := hnone c0 hc0
      dsimp only
      rw [if_neg (fun hh : c0.lastUsedAt.isSome = true ∧ effCount c0 < L => by
        rw [hn0] at hh
        exact absurd hh.1 (by simp))]
  · rw [roundRobinSelect, rrCurrent_unique_max avail cur t hmem hcur hmax huniq]
    dsimp only
    rw [if_neg (fun hh : cur.lastUsedAt.isSome = true ∧ effCount cur < L =>
      absurd hh.2 (not_lt_of_ge hge))]

theorem specOldestPick_eq_rrOldest (avail : List Conn)
    (hsorted : avail.Pairwise (fun a b => effPriority a ≤ effPriority b)) :
    specOldestPick avail = rrOldest avail :=
  firstMinBy_lex_snd oldestKey effPriority avail hsorted

/-- Claim C2: under the round-robin strategy with sticky limit `L`
(default 3), whenever `getProviderCredentials` runs with a non-empty set
of available connections: (1) if the connection with the (unique) most
recent `lastUsedAt` has `consecutiveUseCount < L`, it is selected again
and its persisted count becomes that count plus 1; (2) otherwise - all
connections unused, or the most recently used one has reached the limit -
the connection with the least recent `lastUsedAt` (never-used counting as
least recent, ties broken by lowest priority per `specOldestPick`, with
the query result sorted by priority) is selected and its count reset
to 1; and (3) in particular two fresh connections A and B under L = 3
serve five sequential requests as A, A, A, B, B. -/
theorem c2_round_robin_selection :
    (∀ (providerId : Str) (all : List Conn) (settings : Settings) (locks : ModelLocks)
       (exclude model : Option Str) (now L : Nat) (cur : Conn) (t : Nat),
      jsOrStr settings.fallbackStrategy "fill-first".data = "round-robin".data →
      jsOrNat settings.stickyRoundRobinLimit 3 = L →
      cur ∈ authAvailable providerId all locks exclude model now →
      cur.lastUsedAt = some t →
      (∀ c ∈ authAvailable providerId all locks exclude model now,
        ∀ t2, c.lastUsedAt = some t2 → t2 ≤ t) →
      (∀ c ∈ authAvailable providerId all locks exclude model now,
        c.lastUsedAt = some t → c = cur) →
      effCount cur < L →
      getProviderCredentialsLocal providerId all settings locks exclude model now =
        (.selected cur, updateConnById all cur.id (fun c => { c with lastUsedAt := some now, consecutiveUseCount := some (effCount cur + 1) }))) ∧
    (∀ (providerId : Str) (all : List Conn) (settings : Settings) (locks : ModelLocks)
       (exclude model : Option Str) (now L : Nat) (old : Conn),
      jsOrStr settings.fallbackStrategy "fill-first".data = "round-robin".data →
      jsOrNat settings.stickyRoundRobinLimit 3 = L →
      (authAvailable providerId all locks exclude model now).Pairwise
        (fun a b => effPriority a ≤ effPriority b) →
      ((∀ c ∈ authAvailable providerId all locks exclude model now, c.lastUsedAt = none) ∨
        (∃ cur t, cur ∈ authAvailable providerId all locks exclude model now ∧
          cur.lastUsedAt = some t ∧
          (∀ c ∈ authAvailable providerId all locks exclude model now,
            ∀ t2, c.lastUsedAt = some t2 → t2 ≤ t) ∧
          (∀ c ∈ authAvailable providerId all locks exclude model now,
            c.lastUsedAt = some t → c = cur) ∧ L ≤ effCount cur)) →
      specOldestPick (authAvailable providerId all locks exclude model now) = some old →
      getProviderCredentialsLocal providerId all settings locks exclude model now =
        (.selected old, updateConnById all old.id (fun c => { c with lastUsedAt := some now, consecutiveUseCount := some 1 }))) ∧
    runSequentialSelections "prov".data rrSettings [] none 5 [connA, connB] 1 =
      ["A".data, "A".data, "A".data, "B".data, "B".data] := by
  have hmemConn : ∀ (providerId : Str) (all : List Conn) (locks : ModelLocks)
      (exclude model : Option Str) (now : Nat) (c : Conn),
      c ∈ authAvailable providerId all locks exclude model now →
      c ∈ all.filter (fun x => decide (x.provider = providerId) && x.isActive) := by
    intro providerId all locks exclude model now c hc
    rw [authAvailable, availableConnections] at hc
    exact List.mem_filter.mp hc |>.1
  refine ⟨?_, ?_, by decide⟩
  · intro providerId all settings locks exclude model now L cur t hstrat hL hmem hcur hmax
      huniq hlt
    have hconnne : all.filter (fun x => decide (x.provider = providerId) && x.isActive) ≠ [] :=
      List.ne_nil_of_mem (hmemConn providerId all locks exclude model now cur hmem)
    have havailne : authAvailable providerId all locks exclude model now ≠ [] :=
      List.ne_nil_of_mem hmem
    rw [getProviderCredentialsLocal]
    rw [if_neg hconnne]
    dsimp only
    rw [if_neg havailne, if_pos hstrat, hL,
      roundRobinSelect_sticky L _ cur t hmem hcur hmax huniq hlt]
  · intro providerId all settings locks exclude model now L old hstrat hL hsorted hcase hold
    have hrrold : rrOldest (authAvailable providerId all locks exclude model now) = some old := by
      rw [← specOldestPick_eq_rrOldest _ hsorted]
      exact hold
    have havailne : authAvailable providerId all locks exclude model now ≠ [] := by
      intro hnil
      rw [rrOldest, hnil] at hrrold
      simp [firstMinBy] at hrrold
    obtain ⟨c0, hc0⟩ := List.exists_mem_of_ne_nil _ havailne
    have hconnne : all.filter (fun x => decide (x.provider = providerId) && x.isActive) ≠ [] :=
      List.ne_nil_of_mem (hmemConn providerId all locks exclude model now c0 hc0)
    rw [getProviderCredentialsLocal]
    rw [if_neg hconnne]
    dsimp only
    rw [if_neg havailne, if_pos hstrat, hL, roundRobinSelect_switch L _ hcase, hrrold]
    rfl

/-- Witness for `c2_round_robin_selection` at concrete inputs: with a
recently-used connection A (count 1 < 3) and a fresh B, A is selected
again with count 2; with A at the limit (count 3), the fresh B is
selected with count 1. -/
theorem c2_round_robin_selection_witness :
    getProviderCredentialsLocal "prov".data
      [{ connA with lastUsedAt := some 10, consecutiveUseCount := some 1 }, connB]
      rrSettings [] none none 20 =
      (.selected { connA with lastUsedAt := some 10, consecutiveUseCount := some 1 },
       updateConnById
         [{ connA with lastUsedAt := some 10, consecutiveUseCount := some 1 }, connB]
         "A".data (fun c => { c with lastUsedAt := some 20, consecutiveUseCount := some 2 })) ∧
    getProviderCredentialsLocal "prov".data
      [{ connA with lastUsedAt := some 10, consecutiveUseCount := some 3 }, connB]
      rrSettings [] none none 20 =
      (.selected connB,
       updateConnById
         [{ connA with lastUsedAt := some 10, consecutiveUseCount := some 3 }, connB]
         "B".data (fun c => { c with lastUsedAt := some 20, consecutiveUseCount := some 1 })) :=
  ⟨c2_round_robin_selection.1 "prov".data
      [{ connA with lastUsedAt := some 10, consecutiveUseCount := some 1 }, connB]
      rrSettings [] none none 20 3
      { connA with lastUsedAt := some 10, consecutiveUseCount := some 1 } 10
      rfl rfl (by decide) rfl (by decide) (by decide) (by decide),
   c2_round_robin_selection.2.1 "prov".data
      [{ connA with lastUsedAt := some 10, consecutiveUseCount := some 3 }, connB]
      rrSettings [] none none 20 3 connB rfl rfl (by decide)
      (Or.inr ⟨{ connA with lastUsedAt := some 10, consecutiveUseCount := some 3 }, 10,
        by decide, rfl, by decide, by decide, by decide⟩)
      (by decide)⟩

/-! ## Claim C10: the credential-fallback loop terminates -/

theorem countP_map_le {α : Type} (p : α → Bool) (u : α → α) :
    ∀ (l : List α), (∀ x ∈ l, p (u x) = true → p x = true) →
      List.countP p (l.map u) ≤ List.countP p l := by
  intro l
  induction l with
  | nil => intro _; simp
  | cons x xs ih =>
    intro h
    rw [List.map_cons, List.countP_cons, List.countP_cons]
    have ihh := ih (fun y hy hpy => h y (List.mem_cons_of_mem x hy) hpy)
    by_cases hux : p (u x) = true
    · rw [if_pos hux, if_pos (h x (List.mem_cons_self x xs) hux)]
      omega
    · rw [if_neg hux]
      by_cases hpx : p x = true
      · rw [if_pos hpx]; omega
      · rw [if_neg hpx]; omega

theorem countP_map_lt {α : Type} (p : α → Bool) (u : α → α) :
    ∀ (l : List α) (x0 : α), x0 ∈ l → p x0 = true → p (u x0) = false →
      (∀ x ∈ l, p (u x) = true → p x = true) →
      List.countP p (l.map u) < List.countP p l := by
  intro l
  induction l with
  | nil => intro x0 h; simp at h
  | cons x xs ih =>
    intro x0 hx0 hp0 hpu0 h
    rw [List.map_cons, List.countP_cons, List.countP_cons]
    have hle := countP_map_le p u xs (fun y hy hpy => h y (List.mem_cons_of_mem x hy) hpy)
    rcases List.mem_cons.mp hx0 with rfl | hmem
    · rw [if_neg (by simp [hpu0]), if_pos hp0]
      omega
    · have hlt := ih x0 hmem hp0 hpu0 (fun y hy hpy => h y (List.mem_cons_of_mem x hy) hpy)
      by_cases hux : p (u x) = true
      · rw [if_pos hux, if_pos (h x (List.mem_cons_self x xs) hux)]; omega
      · rw [if_neg hux]
        by_cases hpx : p x = true
        · rw [if_pos hpx]; omega
        · rw [if_neg hpx]; omega

theorem checkFallbackError_shouldFallback_indep (status : Option Nat) (errorText : Str)
    (b1 b2 : Nat) :
    (checkFallbackError status errorText b1).shouldFallback =
      (checkFallbackError status errorText b2).shouldFallback := by
  rw [checkFallbackError.eq_def, checkFallbackError.eq_def]
  by_cases hrl : matchesRateLimitToken errorText = true ∨ status = some 429
  · rw [if_pos hrl, if_pos hrl]
  · rw [if_neg hrl, if_neg hrl]

theorem cloudRateLimitedResult_ne_creds (l : List Conn) (now : Nat) (c : Conn) :
    cloudRateLimitedResult l now ≠ some (.creds c) := by
  rw [cloudRateLimitedResult]
  cases hE : getEarliestRateLimitedUntil l now with
  | none => simp
  | some e => simp

theorem getProviderCredentialsCloud_creds_mem {data : CloudData} {provider : Str}
    {exclude : Option Str} {now : Nat} {c : Conn}
    (h : getProviderCredentialsCloud (some data) provider exclude now = some (.creds c)) :
    c ∈ cloudEligible data provider exclude now := by
  rw [getProviderCredentialsCloud] at h
  cases hfm : firstMinBy effPriority (cloudEligible data provider exclude now) with
  | none =>
    rw [hfm] at h
    exact absurd h (cloudRateLimitedResult_ne_creds _ _ _)
  | some c2 =>
    rw [hfm] at h
    have hc2 : c2 = c := by simpa using h
    exact hc2 ▸ firstMinBy_mem effPriority hfm

theorem cloudEligible_exclude_irrelevant (data : CloudData) (provider : Str)
    (exclude : Option Str) (now : Nat)
    (hx : ∀ c ∈ data.providers, exclude = some c.id →
      isAccountUnavailable c.rateLimitedUntil now = true) :
    cloudEligible data provider exclude now = cloudEligible data provider none now := by
  rw [cloudEligible, cloudEligible]
  apply List.filter_congr
  intro x hxmem
  by_cases hexc : (truthyStr exclude && decide (some x.id = exclude)) = true
  · have hexc2 : exclude = some x.id := by
      have h2 : truthyStr exclude = true ∧ some x.id = exclude := by simpa using hexc
      exact h2.2.symm
    have hunav := hx x hxmem hexc2
    rw [hexc, hunav]
    simp
  · have hexc2 : (truthyStr exclude && decide (some x.id = exclude)) = false :=
      Bool.eq_false_iff.mpr hexc
    rw [hexc2]
    simp [truthyStr]

theorem markAccountUnavailableCloud_eq (data : CloudData) (cid : Str) (status : Option Nat)
    (error : Str) (now : Nat) (conn0 : Conn)
    (hfind : data.providers.find? (fun x => decide (x.id = cid)) = some conn0) :
    markAccountUnavailableCloud data cid status error now =
      ⟨updateConnById data.providers cid (fun c => { c with rateLimitedUntil := some (getUnavailableUntil (checkFallbackError status error (conn0.backoffLevel.getD 0)).cooldownMs now), status := some "unavailable".data, lastError := some (error.take 100), errorCode := if status = some 0 then none else status, lastErrorAt := some now, backoffLevel := some ((checkFallbackError status error (conn0.backoffLevel.getD 0)).newBackoffLevel.getD (conn0.backoffLevel.getD 0)) })⟩ := by
  rw [markAccountUnavailableCloud, hfind]

theorem markCloud_marked_unavailable (data : CloudData) (cid : Str) (status : Option Nat)
    (error : Str) (now : Nat) (conn0 : Conn)
    (hconn0 : data.providers.find? (fun x => decide (x.id = cid)) = some conn0)
    (hcool : 0 < (checkFallbackError status error (conn0.backoffLevel.getD 0)).cooldownMs) :
    ∀ x ∈ (markAccountUnavailableCloud data cid status error now).providers,
      x.id = cid → isAccountUnavailable x.rateLimitedUntil now = true := by
  intro x hx hid
  rw [markAccountUnavailableCloud_eq data cid status error now conn0 hconn0] at hx
  rw [updateConnById] at hx
  rcases List.mem_map.mp hx with ⟨y, hy, rfl⟩
  by_cases hyid : y.id = cid
  · rw [if_pos hyid]
    rw [isAccountUnavailable.eq_def]
    dsimp only [getUnavailableUntil]
    simp
    omega
  · rw [if_neg hyid] at hid
    exact absurd hid hyid

theorem cloudEligible_mark_lt (data : CloudData) (provider : Str) (now : Nat) (c : Conn)
    (status : Option Nat) (error : Str) (conn0 : Conn)
    (hconn0 : data.providers.find? (fun x => decide (x.id = c.id)) = some conn0)
    (hcmem : c ∈ cloudEligible data provider none now)
    (hcool : 0 < (checkFallbackError status error (conn0.backoffLevel.getD 0)).cooldownMs) :
    (cloudEligible (markAccountUnavailableCloud data c.id status error now) provider none
      now).length < (cloudEligible data provider none now).length := by
  have hcprov : c ∈ data.providers := (List.mem_filter.mp hcmem).1
  rw [markAccountUnavailableCloud_eq data c.id status error now conn0 hconn0]
  rw [cloudEligible, cloudEligible, updateConnById]
  dsimp only
  rw [← List.countP_eq_length_filter, ← List.countP_eq_length_filter]
  have hmarked : ∀ (y : Conn), y.id = c.id →
      isAccountUnavailable (some (getUnavailableUntil (checkFallbackError status error
        (conn0.backoffLevel.getD 0)).cooldownMs now)) now = true := by
    intro y _
    rw [isAccountUnavailable.eq_def]
    dsimp only [getUnavailableUntil]
    simp
    omega
  refine countP_map_lt _ _ data.providers c hcprov ((List.mem_filter.mp hcmem).2) ?_ ?_
  · rw [if_pos rfl]
    have hm := hmarked c rfl
    simp [hm]
  · intro x hxmem hpux
    by_cases hid : x.id = c.id
    · rw [if_pos hid] at hpux
      have hm := hmarked x hid
      simp [hm] at hpux
    · rw [if_neg hid] at hpux
      exact hpux

theorem c10_aux (oracle : Nat → CoreOutcome) (provider model : Str) (now : Nat) :
    ∀ (fuel : Nat) (data : CloudData) (exclude : Option Str) (lastError : Option Str)
      (lastStatus : Option Nat) (iter : Nat),
      (∀ c ∈ data.providers, exclude = some c.id →
        isAccountUnavailable c.rateLimitedUntil now = true) →
      (cloudEligible data provider none now).length + 1 ≤ fuel →
      (handleSingleModelLoop oracle provider model now fuel data exclude lastError lastStatus
        iter).isSome = true := by
  intro fuel
  induction fuel with
  | zero =>
    intro data _ _ _ _ _ hlen
    omega
  | succ n ih =>
    intro data exclude lastError lastStatus iter hinv hlen
    rw [handleSingleModelLoop]
    cases hcred : getProviderCredentialsCloud (some data) provider exclude now with
    | none =>
      dsimp only
      split_ifs <;> rfl
    | some res =>
      cases res with
      | allRateLimited retryAfter human credLastError credLastErrorCode => rfl
      | creds c =>
        dsimp only
        cases horacle : oracle iter with
        | success => rfl
        | failure status error =>
          dsimp only
          by_cases hsf : (checkFallbackError status error 0).shouldFallback = true
          · rw [if_pos hsf]
            have hcmemx : c ∈ cloudEligible data provider exclude now :=
              getProviderCredentialsCloud_creds_mem hcred
            have hsame := cloudEligible_exclude_irrelevant data provider exclude now hinv
            have hcmem0 : c ∈ cloudEligible data provider none now := hsame ▸ hcmemx
            have hcprov : c ∈ data.providers := (List.mem_filter.mp hcmem0).1
            have hfindsome : (data.providers.find? (fun x => decide (x.id = c.id))).isSome =
                true := List.find?_isSome.mpr ⟨c, hcprov, by simp⟩
            obtain ⟨conn0, hconn0⟩ := Option.isSome_iff_exists.mp hfindsome
            have hsfb : (checkFallbackError status error
                (conn0.backoffLevel.getD 0)).shouldFallback = true := by
              rw [checkFallbackError_shouldFallback_indep status error _ 0]
              exact hsf
            have hcool := checkFallbackError_cooldown_pos status error _ hsfb
            have hdec := cloudEligible_mark_lt data provider now c status error conn0
              hconn0 hcmem0 hcool
            have hinv2 : ∀ x ∈ (markAccountUnavailableCloud data c.id status error
                now).providers, some c.id = some x.id →
                isAccountUnavailable x.rateLimitedUntil now = true := by
              intro x hx hxid
              have hxid2 : x.id = c.id := by injection hxid with h2; exact h2.symm
              exact markCloud_marked_unavailable data c.id status error now conn0 hconn0
                hcool x hx hxid2
            exact ih (markAccountUnavailableCloud data c.id status error now) (some c.id)
              (some error) status (iter + 1) hinv2 (by omega)
          · rw [if_neg hsf]
            rfl

/-- Claim C10: the credential-fallback `while` loop of
`handleSingleModelChat` terminates for every request over a machine with
`N` provider connections - under the claim's stated assumptions (each
`getMachineData` read observes the preceding `markAccountUnavailable`
write, modelled by threading the document, and no cooldown expires during
the request, modelled by the fixed `now`), the loop exits with some
response within `N + 1` iterations: each non-final iteration marks the
selected connection with a `rateLimitedUntil` strictly in the future
(every retryable cooldown is positive) and excludes it, so the set of
eligible connections strictly shrinks. -/
theorem c10_loop_terminates (oracle : Nat → CoreOutcome) (provider model : Str) (now : Nat)
    (data : CloudData) (fuel : Nat)
    (hfuel : data.providers.length + 1 ≤ fuel) :
    (handleSingleModelLoop oracle provider model now fuel data none none none 0).isSome =
      true := by
  apply c10_aux oracle provider model now fuel data none none none 0
  · intro c _ hc
    exact absurd hc (by simp)
  · have hle : (cloudEligible data provider none now).length ≤ data.providers.length := by
      rw [cloudEligible]
      exact List.length_filter_le _ _
    omega

/-- Witness for `c10_loop_terminates` at a concrete input: one
connection, an always-429 upstream; the loop exits within 2 iterations. -/
theorem c10_loop_terminates_witness :
    (handleSingleModelLoop (fun _ => .failure (some 429) "rate limited".data)
      "openai".data "gpt-4o".data 1000 2 ⟨[mkConn "c1".data "openai".data]⟩
      none none none 0).isSome = true :=
  c10_loop_terminates (fun _ => .failure (some 429) "rate limited".data)
    "openai".data "gpt-4o".data 1000 ⟨[mkConn "c1".data "openai".data]⟩ 2 (by decide)

end NineRouter
